import Mathlib

/-!
Shallow embedding of the FiloDB storage engine core (Go) in Lean 4.

Conventions used throughout:
* Go byte slices are modelled as `List Nat` whose elements are byte values.
* Go functions that can panic (assertion failures, out-of-range indexing,
  nil dereference) are modelled in the monad `M := Except String`; the
  error string carries the panic message.
* Go multi-value returns `(x, err)` keep the Go-level `error` as an
  explicit `Option String` inside the `.ok` payload, so that recoverable
  Go errors are distinguished from panics.
* Fixed-width unsigned arithmetic (`uint16`, `uint64`) is modelled on
  `Nat` with explicit reductions modulo `2^16` / `2^64` at the points
  where the Go code truncates.
-/

set_option exponentiation.threshold 100000

set_option maxRecDepth 8000

namespace FiloDB

abbrev M (α : Type) : Type := Except String α

/-- Bounds-checked indexing; models a Go panic on out-of-range access. -/
def getAt {α : Type} (xs : List α) (i : Nat) : M α :=
  match xs.get? i with
  | some x => Except.ok x
  | none => Except.error "index out of range"

/-- Bounds-checked in-place store `xs[i] = b`; models a Go panic on
out-of-range access. -/
def setAt {α : Type} (xs : List α) (i : Nat) (b : α) : M (List α) :=
  if i < xs.length then Except.ok (xs.set i b) else Except.error "index out of range"

/-- Read the byte range `d[pos : pos+n]` of a per-byte list. -/
def readRangeL (d : List Nat) (pos n : Nat) : List Nat :=
  (d.drop pos).take n

/-- Little-endian byte list of width `w` for the value `n` (as written by
Go `binary.LittleEndian.PutUintN`). -/
def leBytes : Nat → Nat → List Nat
  | 0, _ => []
  | w + 1, n => n % 256 :: leBytes w (n / 256)

/-- Value of a little-endian byte list (Go `binary.LittleEndian.UintN`). -/
def lval : List Nat → Nat
  | [] => 0
  | b :: rest => b + 256 * lval rest

/-- Big-endian byte list of width `w` (Go `binary.BigEndian.PutUintN`). -/
def beBytes (w n : Nat) : List Nat :=
  (leBytes w n).reverse

/-- Value of a big-endian byte list (Go `binary.BigEndian.UintN`). -/
def beVal (bs : List Nat) : Nat :=
  bs.foldl (fun acc b => acc * 256 + b) 0

/-- Go `uint64(i)` for a signed 64-bit integer value. -/
def intToU64 (i : Int) : Nat :=
  (i % (2 ^ 64 : Int)).toNat

/-- Go `int64(u)` for an unsigned 64-bit value. -/
def u64ToI64 (u : Nat) : Int :=
  if u % 2 ^ 64 < 2 ^ 63 then (u % 2 ^ 64 : Int) else (u % 2 ^ 64 : Int) - 2 ^ 64

/-- Go `bytes.Compare` on byte slices: -1, 0 or 1. -/
def bytesCompare : List Nat → List Nat → Int
  | [], [] => 0
  | [], _ :: _ => -1
  | _ :: _, [] => 1
  | a :: as, b :: bs =>
    if a < b then -1 else if b < a then 1 else bytesCompare as bs

/-! ## Record codec (src/database/filodb_records.go) -/

def TYPE_ERROR : Nat := 0
def TYPE_INT64 : Nat := 1
def TYPE_BYTES : Nat := 2

/-- A table cell (struct `Value`): a type tag plus the union payload. -/
structure Value where
  typ : Nat
  i64 : Int
  str : List Nat
  deriving Repr, DecidableEq

def Value.zero : Value := ⟨0, 0, []⟩

def mkI64 (n : Int) : Value := ⟨TYPE_INT64, n, []⟩

def mkStr (s : List Nat) : Value := ⟨TYPE_BYTES, 0, s⟩

/-- A table row (struct `Record`). -/
structure Record where
  cols : List String
  vals : List Value
  deriving Repr, DecidableEq

/-- Table schema (struct `TableDef`); `pfx` is the assigned primary
key-space identifier (field `Prefix` in Go). -/
structure TableDef where
  name : String
  types : List Nat
  cols : List String
  pkeys : Nat
  indexes : List (List String)
  pfx : Nat
  indexPfx : List Nat
  deriving Repr, DecidableEq

/-- Loop body of `escapeString`: walk the input, expanding bytes `0x00`
and `0x01` to escape pairs, writing into the fixed-size buffer `out`. -/
def escLoop : List Nat → List Nat → Nat → M (List Nat)
  | [], out, _ => Except.ok out
  | ch :: rest, out, pos =>
    if ch ≤ 1 then do
      let out ← setAt out pos 1
      let out ← setAt out (pos + 1) (ch + 1)
      escLoop rest out (pos + 2)
    else do
      let out ← setAt out pos ch
      escLoop rest out (pos + 1)

/-- Go `escapeString`: escape `0x00`/`0x01`, with a special two-byte
escape when the first byte is `0xFE` or `0xFF` (only taken when the
string also contains a `0x00` or `0x01` byte). -/
def escapeString (inp : List Nat) : M (List Nat) :=
  let zeros := inp.count 0
  let ones := inp.count 1
  if zeros + ones == 0 then Except.ok inp
  else
    let out := List.replicate (inp.length + zeros + ones) 0
    if inp.length > 0 && 0xfe ≤ inp.headD 0 then do
      let out ← setAt out 0 0xfe
      let out ← setAt out 1 (inp.headD 0)
      escLoop inp.tail out 2
    else
      escLoop inp out 0

/-- The escape-pair count computed by the first loop of
`unEscapeString`: a `0x01` byte followed by at least one more byte
counts as one escape pair and skips the next byte. -/
def escCount : List Nat → Nat
  | 1 :: _ :: rest => 1 + escCount rest
  | _ :: rest => escCount rest
  | [] => 0

/-- Main loop of `unEscapeString`: contract escape pairs, writing into
the fixed-size buffer `out` (byte arithmetic wraps modulo 256). -/
def unescLoop : List Nat → List Nat → Nat → M (List Nat)
  | [], out, _ => Except.ok out
  | 1 :: b :: rest, out, pos => do
    let out ← setAt out pos ((b + 255) % 256)
    unescLoop rest out (pos + 1)
  | ch :: rest, out, pos => do
    let out ← setAt out pos ch
    unescLoop rest out (pos + 1)

/-- Go `unEscapeString`: inverse direction of `escapeString`, including
its handling of a leading `0xFE` byte. -/
def unEscapeString (inp : List Nat) : M (List Nat) :=
  if inp.length == 0 then Except.ok inp
  else
    let ec := escCount inp
    if ec == 0 && !(inp.headD 0 == 0xfe) then Except.ok inp
    else
      let outLen := inp.length - ec - (if inp.headD 0 == 0xfe then 1 else 0)
      let out := List.replicate outLen 0
      if inp.headD 0 == 0xfe then
        if inp.length < 2 then Except.ok inp
        else do
          let out ← setAt out 0 (inp.getD 1 0)
          unescLoop (inp.drop 2) out 1
      else
        unescLoop inp out 0

/-- Go `encodeValues`: order-preserving encoding of a list of typed
values (INT64 sign-flipped big-endian; BYTES escaped and
NUL-terminated); panics on any other type tag. -/
def encodeValues (out : List Nat) (vals : List Value) : M (List Nat) :=
  vals.foldlM (fun out v =>
    if v.typ = TYPE_INT64 then
      Except.ok (out ++ beBytes 8 ((intToU64 v.i64 + 2 ^ 63) % 2 ^ 64))
    else if v.typ = TYPE_BYTES then
      if v.str.isEmpty then Except.ok (out ++ [0])
      else do
        let e ← escapeString v.str
        Except.ok (out ++ e ++ [0])
    else Except.error "invalid type while encodeValues") out

/-- Go `decodeValues`: positional decoding guided by the type tags
already present in `out`; a short input returns the remaining entries
unchanged (the bare `return` in the Go loop). -/
def decodeValues : List Nat → List Value → M (List Value)
  | _, [] => Except.ok []
  | remaining, v :: rest =>
    if v.typ = TYPE_INT64 then
      if remaining.length < 8 then Except.ok (v :: rest)
      else do
        let u := beVal (readRangeL remaining 0 8)
        let rest' ← decodeValues (remaining.drop 8) rest
        Except.ok (⟨TYPE_INT64, u64ToI64 ((u + 2 ^ 63) % 2 ^ 64), []⟩ :: rest')
    else if v.typ = TYPE_BYTES then
      let endIdx := (remaining.takeWhile (fun b => b ≠ 0)).length
      if remaining.length ≤ endIdx then Except.ok (v :: rest)
      else do
        let s ← unEscapeString (remaining.take endIdx)
        let rest' ← decodeValues (remaining.drop (endIdx + 1)) rest
        Except.ok (⟨TYPE_BYTES, 0, s⟩ :: rest')
    else Except.error "invalid type while decodeValues"

/-- Go `encodeKey`: 4-byte big-endian key-space identifier followed by
the encoded values. -/
def encodeKey (out : List Nat) (pfx : Nat) (vals : List Value) : M (List Nat) :=
  encodeValues (out ++ beBytes 4 (pfx % 2 ^ 32)) vals

/-- Loop of the `n == tdef.PKeys` / `n == len(tdef.Cols)` passes of
`checkRecord`: place each requested schema column's value (looked up by
name in the record) at its schema position. -/
def crLoop (rec : Record) (missing : String) :
    List (Nat × String) → List Value → M (Except String (List Value))
  | [], ordered => Except.ok (Except.ok ordered)
  | (i, col) :: rest, ordered =>
    if rec.cols.contains col then do
      let v ← getAt rec.vals (rec.cols.indexOf col)
      crLoop rec missing rest (ordered.set i v)
    else Except.ok (Except.error (missing ++ col))

/-- Go `checkRecord`: reorder a record's values into schema order,
checking that either the primary-key columns (`n = PKeys`) or all
columns (`n = len(Cols)`) are present. The outer `Except` models Go
panics, the inner one the Go error value returned to the caller. -/
def checkRecord (tdef : TableDef) (rec : Record) (n : Nat) :
    M (Except String (List Value)) := do
  let ordered := List.replicate tdef.cols.length Value.zero
  let r ←
    if n = tdef.pkeys then
      crLoop rec "missing primary key column: "
        ((tdef.cols.take tdef.pkeys).enum) ordered
    else Except.ok (Except.ok ordered)
  match r with
  | Except.error e => Except.ok (Except.error e)
  | Except.ok ordered =>
    if n = tdef.cols.length then
      crLoop rec "missing column: " tdef.cols.enum ordered
    else Except.ok (Except.ok ordered)

/-- Loop of `validateTableTypes`: for each position of the record's
column list, compare the record value's type tag at that position with
the schema type at the same position. -/
def vttLoop (types : List Nat) (vals : List Value) : List String → Nat → M Bool
  | [], _ => Except.ok true
  | _ :: cs, i => do
    let v ← getAt vals i
    let t ← getAt types i
    if v.typ ≠ t then Except.ok false else vttLoop types vals cs (i + 1)

/-- Go `validateTableTypes`: positional type check used by `dbUpdate`. -/
def validateTableTypes (tdef : TableDef) (rec : Record) : M Bool :=
  vttLoop tdef.types rec.vals rec.cols 0

def isValidCol (tdef : TableDef) (col : String) : Bool :=
  tdef.cols.contains col

/-- Go `checkIndexKeys`: validate index columns, auto-append the
primary-key columns missing from the index, and require the result to
be shorter than the column list. -/
def checkIndexKeys (tdef : TableDef) (index : List String) : M (List String) := do
  if index.all (fun c => isValidCol tdef c) then
    let index := index ++ (tdef.cols.take tdef.pkeys).filter (fun c => !index.contains c)
    if tdef.cols.length ≤ index.length then
      Except.error "index len should be shorter than columns"
    else Except.ok index
  else
    match index.find? (fun c => !isValidCol tdef c) with
    | some c => Except.error ("invalid index column: " ++ c)
    | none => Except.error "invalid index column"

/-- Per-column loop of `tableDefCheck`: empty-name, duplicate-name and
type-id checks, in the Go order. -/
def tdcLoop : List (String × Nat) → List String → M Unit
  | [], _ => Except.ok ()
  | (c, t) :: rest, seen =>
    if c = "" then Except.error "column name cannot be empty"
    else if seen.contains c then Except.error ("duplicate column name: " ++ c)
    else if t ≠ TYPE_BYTES ∧ t ≠ TYPE_INT64 then
      Except.error ("invalid data type for column " ++ c)
    else tdcLoop rest (c :: seen)

/-- Go `tableDefCheck`: schema validation run by `TableNew`; returns the
schema with its index lists rewritten by `checkIndexKeys`. -/
def tableDefCheck (tdef : TableDef) : M TableDef := do
  if tdef.name = "" then Except.error "table name cannot be empty" else
  if tdef.cols.length = 0 then Except.error "table must have at least one column" else
  if tdef.cols.length ≠ tdef.types.length then
    Except.error "length of columns & types do not match" else do
  tdcLoop (tdef.cols.zip tdef.types) []
  if 1 < tdef.pkeys then Except.error "only one primary key is allowed" else do
  let newIndexes ← tdef.indexes.mapM (checkIndexKeys tdef)
  Except.ok { tdef with indexes := newIndexes }

/-! ## Packed byte strings

The page layer works on whole 4096-byte pages; to keep those tractable
a Go byte slice is represented in packed form: its length together with
the natural number whose base-256 big-endian digits are the bytes (so
byte 0 is the most significant digit). `bytesOfList` / `listOfBytes`
mediate between this view and the per-byte list view used by the record
codec above. -/

/-- A Go byte slice in packed form: `data < 256 ^ len`, and the byte at
index `i` is digit `len - 1 - i` of `data` in base 256. -/
structure Bytes where
  len : Nat
  data : Nat
  deriving Repr, DecidableEq

/-- The nil / empty byte slice. -/
def Bytes.nil : Bytes := ⟨0, 0⟩

/-- A buffer of `n` zero bytes (Go `make([]byte, n)`). -/
def zeros (n : Nat) : Bytes := ⟨n, 0⟩

/-- Go slicing `d[pos:][:n]` (clamped like the list `(drop pos).take n`). -/
def readRange (d : Bytes) (pos n : Nat) : Bytes :=
  let m := min n (d.len - pos)
  ⟨m, d.data % 256 ^ (d.len - pos) / 256 ^ (d.len - pos - m)⟩

/-- Byte at index `i` (0 when out of range). -/
def byteAt (d : Bytes) (i : Nat) : Nat := (readRange d i 1).data

/-- The semantics of Go `copy(d[pos:], src)`: overwrite bytes
`pos .. pos+src.len` of `d`, truncating whatever runs past the end;
the length of `d` is preserved. -/
def writeBytes (d : Bytes) (pos : Nat) (src : Bytes) : Bytes :=
  let pre := readRange d 0 pos
  let post := readRange d (pos + src.len) d.len
  let total := pre.len + src.len + post.len
  let cat := pre.data * 256 ^ (src.len + post.len) + src.data * 256 ^ post.len + post.data
  ⟨d.len, cat / 256 ^ (total - d.len)⟩

/-- The `w`-byte little-endian encoding of `v` (as laid out by Go
`binary.LittleEndian.PutUintN`), in packed form. -/
def leB : Nat → Nat → Bytes
  | 0, _ => ⟨0, 0⟩
  | w + 1, v => ⟨w + 1, v % 256 * 256 ^ w + (leB w (v / 256)).data⟩

/-- Helper for `lvalB`: little-endian value of a big-endian packed
digit string of length `L`. -/
def lvalGo : Nat → Nat → Nat
  | 0, _ => 0
  | L + 1, v => v / 256 ^ L % 256 + 256 * lvalGo L (v % 256 ^ L)

/-- Go `binary.LittleEndian.UintN` on a packed byte string. -/
def lvalB (d : Bytes) : Nat := lvalGo d.len d.data

/-- Go `bytes.Compare` on packed byte strings (lexicographic). -/
def bytesCmp (a b : Bytes) : Int :=
  let m := min a.len b.len
  let ah := a.data / 256 ^ (a.len - m)
  let bh := b.data / 256 ^ (b.len - m)
  if ah < bh then -1 else if bh < ah then 1
  else if a.len < b.len then -1 else if b.len < a.len then 1 else 0

/-- Pack a per-byte list into a `Bytes`. -/
def bytesOfList (l : List Nat) : Bytes :=
  l.foldl (fun b x => ⟨b.len + 1, b.data * 256 + x % 256⟩) ⟨0, 0⟩

/-- Helper for `listOfBytes`. -/
def lobGo : Nat → Nat → List Nat
  | 0, _ => []
  | L + 1, v => v / 256 ^ L :: lobGo L (v % 256 ^ L)

/-- Unpack a `Bytes` into its per-byte list. -/
def listOfBytes (d : Bytes) : List Nat := lobGo d.len d.data

/-! ## B+ tree node codec (src/unnamed/part_012, `BNode`) -/

def BTREE_PAGE_SIZE : Nat := 4096
def BTREE_MAX_KEY_SIZE : Nat := 1000
def BTREE_MAX_VAL_SIZE : Nat := 3000
def HEADER : Nat := 4
def BNODE_INODE : Nat := 1
def BNODE_LEAF : Nat := 2

/-- A node's on-page byte image (`BNode.data`); length 0 is Go's zero
`BNode{}` used as a not-found sentinel by the delete path. -/
abbrev BNode := Bytes

/-- Go `u - v` on `uint16` operands, wrapping modulo `2^16`. -/
def sub16 (u v : Nat) : Nat :=
  (u % 2 ^ 16 + (2 ^ 16 - v % 2 ^ 16)) % 2 ^ 16

def bNodeType (node : BNode) : Nat := lvalB (readRange node 0 2)

def nKeys (node : BNode) : Nat := lvalB (readRange node 2 2)

def setHeader (node : BNode) (btype nkeys : Nat) : BNode :=
  writeBytes (writeBytes node 0 (leB 2 (btype % 2 ^ 16))) 2 (leB 2 (nkeys % 2 ^ 16))

def getPtr (node : BNode) (idx : Nat) : M Nat :=
  if idx < nKeys node then
    Except.ok (lvalB (readRange node ((HEADER + 8 * idx) % 2 ^ 16) 8))
  else Except.error "Failed in getPtr"

def setPtr (node : BNode) (ptr idx : Nat) : M BNode :=
  if idx < nKeys node then
    Except.ok (writeBytes node ((HEADER + 8 * idx) % 2 ^ 16) (leB 8 (ptr % 2 ^ 64)))
  else Except.error "Failed in setPtr"

/-- Position of the stored offset for entry `idx`; the Go `idx - 1` is
`uint16` arithmetic, hence the wrap-around subtraction. -/
def offsetPos (node : BNode) (idx : Nat) : Nat :=
  (HEADER + 8 * nKeys node + 2 * sub16 idx 1) % 2 ^ 16

def getOffset (node : BNode) (idx : Nat) : Nat :=
  if idx = 0 then 0 else lvalB (readRange node (offsetPos node idx) 2)

def setOffset (node : BNode) (idx offset : Nat) : BNode :=
  writeBytes node (offsetPos node idx) (leB 2 (offset % 2 ^ 16))

def kvPos (node : BNode) (idx : Nat) : M Nat :=
  if idx ≤ nKeys node then
    Except.ok ((HEADER + 8 * nKeys node + 2 * nKeys node + getOffset node idx) % 2 ^ 16)
  else Except.error "Failed in kvPos"

def getKey (node : BNode) (idx : Nat) : M Bytes :=
  if idx < nKeys node then do
    let pos ← kvPos node idx
    let klen := lvalB (readRange node pos 2)
    Except.ok (readRange node ((pos + 4) % 2 ^ 16) klen)
  else Except.error "Failed in getKey"

def getVal (node : BNode) (idx : Nat) : M Bytes :=
  if idx < nKeys node then do
    let pos ← kvPos node idx
    let klen := lvalB (readRange node pos 2)
    let vlen := lvalB (readRange node ((pos + 2) % 2 ^ 16) 2)
    Except.ok (readRange node ((pos + 4 + klen) % 2 ^ 16) vlen)
  else Except.error "Failed in getVal"

def nbytes (node : BNode) : M Nat := kvPos node (nKeys node)

/-- Loop of `nodeLookupLE` over indices `1 .. nkeys-1`: remember the
last index whose key compares `≤` the target, stop at the first `>`. -/
def nlGo (node : BNode) (key : Bytes) : List Nat → Nat → M Nat
  | [], found => Except.ok found
  | i :: rest, found => do
    let ki ← getKey node i
    if bytesCmp ki key ≤ 0 then nlGo node key rest i
    else Except.ok found

/-- Go `nodeLookupLE`: largest index whose key is `≤` the target (index
0 is the parent-copied minimum and is never compared). -/
def nodeLookupLE (node : BNode) (key : Bytes) : M Nat :=
  nlGo node key (List.range' 1 (nKeys node - 1)) 0

def nodeAppendKV (new : BNode) (idx ptr : Nat) (key val : Bytes) : M BNode := do
  let new ← setPtr new ptr idx
  let pos ← kvPos new idx
  let keyLen := key.len % 2 ^ 16
  let new := writeBytes new pos (leB 2 keyLen)
  let new := writeBytes new ((pos + 2) % 2 ^ 16) (leB 2 (val.len % 2 ^ 16))
  let new := writeBytes new ((pos + 4) % 2 ^ 16) key
  let new := writeBytes new ((pos + 4 + keyLen) % 2 ^ 16) val
  Except.ok (setOffset new (idx + 1)
    ((getOffset new idx + 4 + (key.len + val.len) % 2 ^ 16) % 2 ^ 16))

/-- Go `nodeAppendRange`: copy `num` entries (`src ..`) of `old` into
`new` at `dst ..`, with the two assertions of the source. -/
def nodeAppendRange (new old : BNode) (dst src num : Nat) : M BNode := do
  if ¬ (src + num ≤ nKeys old) then
    Except.error "Failed in nodeAppendRange src+num <= old.nkeys()"
  else if ¬ (dst + num ≤ nKeys new) then
    Except.error "Failed in nodeAppendRange dst+num <= old.nkeys()"
  else if num = 0 then Except.ok new
  else do
    let new ← (List.range num).foldlM (fun (n : BNode) i => do
      let p ← getPtr old (src + i)
      setPtr n p (dst + i)) new
    let dstBegin := getOffset new dst
    let srcBegin := getOffset old src
    let new := (List.range num).foldl (fun (n : BNode) i =>
      let offset := (dstBegin + sub16 (getOffset old (src + (i + 1))) srcBegin) % 2 ^ 16
      setOffset n (dst + (i + 1)) offset) new
    let bg ← kvPos old src
    let ed ← kvPos old (src + num)
    let posd ← kvPos new dst
    Except.ok (writeBytes new posd (readRange old bg (ed - bg)))

def leafInsert (new old : BNode) (idx : Nat) (key val : Bytes) : M BNode := do
  let new := setHeader new BNODE_LEAF (nKeys old + 1)
  let new ← nodeAppendRange new old 0 0 idx
  let new ← nodeAppendKV new idx 0 key val
  nodeAppendRange new old (idx + 1) idx (nKeys old - idx)

def leafUpdate (new old : BNode) (idx : Nat) (key val : Bytes) : M BNode := do
  let new := setHeader new BNODE_LEAF (nKeys old)
  let new ← nodeAppendRange new old 0 0 idx
  let new ← nodeAppendKV new idx 0 key val
  nodeAppendRange new old (idx + 1) (idx + 1) (nKeys old - idx - 1)

def leafDelete (new old : BNode) (idx : Nat) : M BNode := do
  let new := setHeader new (bNodeType old) (nKeys old - 1)
  let new ← nodeAppendRange new old 0 0 idx
  nodeAppendRange new old idx (idx + 1) (nKeys old - (idx + 1))

def nodeMerge (new left right : BNode) : M BNode := do
  let new := setHeader new (bNodeType left) (nKeys left + nKeys right)
  let new ← nodeAppendRange new left 0 0 (nKeys left)
  nodeAppendRange new right (nKeys left) 0 (nKeys right)

def nodeReplace2Kid (new node : BNode) (idx ptr : Nat) (key : Bytes) : M BNode := do
  let new := setHeader new (bNodeType node) (nKeys node - 1)
  let new ← nodeAppendRange new node 0 0 idx
  let new ← nodeAppendKV new idx ptr key Bytes.nil
  nodeAppendRange new node (idx + 1) (idx + 2) (nKeys node - (idx + 2))

/-- Go `nodeSplit2`: as written in the source, it fills a left and a
right node from `old` without ever writing their headers. -/
def nodeSplit2 (left right old : BNode) : M (BNode × BNode) := do
  let midIndex := nKeys old / 2
  let left ← nodeAppendRange left old 0 0 midIndex
  let right ← nodeAppendRange right old 0 midIndex (nKeys old - 1)
  Except.ok (left, right)

/-- Go `nodeSplit3`: return the node unchanged (truncated to one page)
when it fits, otherwise split via `nodeSplit2`. -/
def nodeSplit3 (old : BNode) : M (Nat × List BNode) := do
  let nb ← nbytes old
  if nb ≤ BTREE_PAGE_SIZE then
    Except.ok (1, [readRange old 0 BTREE_PAGE_SIZE])
  else do
    let left : BNode := zeros (2 * BTREE_PAGE_SIZE)
    let right : BNode := zeros BTREE_PAGE_SIZE
    let (left, right) ← nodeSplit2 left right old
    let nbl ← nbytes left
    if nbl ≤ BTREE_PAGE_SIZE then Except.ok (2, [left, right])
    else do
      let leftleft : BNode := zeros BTREE_PAGE_SIZE
      let middle : BNode := zeros BTREE_PAGE_SIZE
      let (leftleft, middle) ← nodeSplit2 leftleft middle left
      let nbll ← nbytes leftleft
      if nbll ≤ BTREE_PAGE_SIZE then Except.ok (3, [left, middle, right])
      else Except.error "Failed in nodeSplit3"

/-! ## KV store state, page callbacks and free list
(src/unnamed/part_004, part_006, src/database/filodb_transactions.go) -/

/-- Concatenation of packed byte strings. -/
def bapp (a b : Bytes) : Bytes := ⟨a.len + b.len, a.data * 256 ^ b.len + b.data⟩

/-- One write that reached the database file: a data page copied into
the shared mmap region, the positional master-page write, or an fsync. -/
inductive DiskEv where
  | page (ptr : Nat)
  | master (bytes : Bytes)
  | fsync
  deriving Repr, DecidableEq

/-- Go struct `FreeListData`: persisted head plus the in-memory caches. -/
structure FreeListData where
  head : Nat
  nodes : List Nat
  total : Nat
  offset : Nat
  deriving Repr, DecidableEq

/-- The shared `KV` object: published tree root, flushed page count,
version counter, freelist metadata, the mmap page contents, and the log
of writes that reached the file. -/
structure KVState where
  root : Nat
  flushed : Nat
  version : Nat
  free : FreeListData
  mapped : List (Nat × Bytes)
  disk : List DiskEv
  deriving Repr, DecidableEq

/-- A write transaction (`KVTX`): the shared `KV`, the transaction's
tree root, the dirty page map (`none` marks a deallocated page), the
append counter, and the transaction-scoped `FreeList` fields. -/
structure TXState where
  kv : KVState
  txVersion : Nat
  treeRoot : Nat
  updates : List (Nat × Option BNode)
  nappend : Nat
  flData : FreeListData
  flVersion : Nat
  flMinReader : Nat
  deriving Repr, DecidableEq

/-- Association-list lookup standing in for a Go map read. -/
def alookup {α : Type} (l : List (Nat × α)) (k : Nat) : Option α :=
  (l.find? (fun p => p.1 = k)).map (fun p => p.2)

/-- Association-list store standing in for a Go map write; insertion
order is kept, fixing one admissible Go map iteration order. -/
def aset {α : Type} (l : List (Nat × α)) (k : Nat) (v : α) : List (Nat × α) :=
  if (l.find? (fun p => p.1 = k)).isSome then
    l.map (fun p => if p.1 = k then (k, v) else p)
  else l ++ [(k, v)]

/-- Go `pageGetMapped`: locate page `ptr` in the mmap chunks; an
unmapped page number panics with "bad ptr". -/
def pageGetMapped (s : TXState) (ptr : Nat) : M BNode :=
  match alookup s.kv.mapped ptr with
  | some d => Except.ok d
  | none => Except.error "bad ptr"

/-- Go `KVTX.pageGet`: the dirty map shadows the mmap; a deallocated
entry (`nil`) yields Go's empty `BNode{}`. -/
def pageGet (s : TXState) (ptr : Nat) : M BNode :=
  match alookup s.updates ptr with
  | some (some d) => Except.ok d
  | some none => Except.ok Bytes.nil
  | none => pageGetMapped s ptr

/-- Go `KVTX.pageAppend`: allocate the next page number past the
flushed region and record the node in the dirty map. -/
def pageAppend (s : TXState) (node : BNode) : M (Nat × TXState) :=
  if node.len ≤ BTREE_PAGE_SIZE then
    let ptr := s.nappend + s.kv.flushed
    Except.ok (ptr, { s with nappend := s.nappend + 1,
                             updates := aset s.updates ptr (some node) })
  else Except.error "assertion failed"

def pageDel (s : TXState) (ptr : Nat) : TXState :=
  { s with updates := aset s.updates ptr none }

/-- Go `KVTX.pageUse`: reuse an existing page number for a new node. -/
def pageUse (s : TXState) (ptr : Nat) (node : BNode) : TXState :=
  { s with updates := aset s.updates ptr (some node) }

/-! Free-list node accessors (part_006). -/

def BNODE_FREE_LIST : Nat := 3
def FREE_LIST_HEADER : Nat := 4 + 8 + 8
def FREE_LIST_CAP : Nat := (BTREE_PAGE_SIZE - FREE_LIST_HEADER) / 8

def flnSize (node : BNode) : Nat := nKeys node

def flnNext (node : BNode) : Nat := lvalB (readRange node (4 + 8) 8)

def flnPtr (node : BNode) (idx : Nat) : Nat :=
  lvalB (readRange node (FREE_LIST_HEADER + idx * 8) 8)

def flnSetPtr (node : BNode) (idx ptr : Nat) : BNode :=
  writeBytes node (FREE_LIST_HEADER + idx * 8) (leB 8 (ptr % 2 ^ 64))

def flnSetHeader (node : BNode) (size next : Nat) : BNode :=
  writeBytes (writeBytes node 2 (leB 2 (size % 2 ^ 16))) (4 + 8) (leB 8 (next % 2 ^ 64))

def flnSetTotal (node : BNode) (total : Nat) : BNode :=
  writeBytes node 4 (leB 8 (total % 2 ^ 64))

/-- Go `flnItem`: read the (pointer, version) pair stored at 16-byte
stride `offset`, or zeros when the node is too short. -/
def flnItem (node : BNode) (offset : Nat) : Nat × Nat :=
  let pos := FREE_LIST_HEADER + offset * 16
  if node.len < pos + 16 then (0, 0)
  else (lvalB (readRange node pos 8), lvalB (readRange node (pos + 8) 8))

/-- Go `u - ver` as an unsigned 64-bit wrap-around difference. -/
def u64sub (u v : Nat) : Nat :=
  (u % 2 ^ 64 + (2 ^ 64 - v % 2 ^ 64)) % 2 ^ 64

/-- Go `versionBefore(u, ver)`: `int64(u - ver) < 0`. -/
def versionBefore (u ver : Nat) : Bool :=
  decide (2 ^ 63 ≤ u64sub u ver)

/-- Write a mutated free-list node back to where `fl.get` found it (the
Go code mutates the shared byte slice in place). -/
def storeBack (s : TXState) (ptr : Nat) (node : BNode) : TXState :=
  match alookup s.updates ptr with
  | some _ => { s with updates := aset s.updates ptr (some node) }
  | none => { s with kv := { s.kv with mapped := aset s.kv.mapped ptr node,
                                       disk := s.kv.disk ++ [DiskEv.page ptr] } }

/-- Walk the free list from `head` collecting node page numbers
(`loadCache`'s first loop); fuel guards against a cyclic list. -/
def flWalk : Nat → TXState → Nat → List Nat → M (List Nat)
  | 0, _, _, _ => Except.error "model: out of fuel"
  | _ + 1, _, 0, acc => Except.ok acc
  | fuel + 1, s, curr, acc => do
    let node ← pageGet s curr
    flWalk fuel s (flnNext node) (acc ++ [curr])

/-- Go `FreeList.loadCache`. -/
def loadCache (s : TXState) : M TXState :=
  if 0 < s.flData.nodes.length then Except.ok s
  else if s.flData.head = 0 then
    Except.ok { s with flData := { s.flData with total := 0, offset := 0 } }
  else do
    let nodes ← flWalk 64 s s.flData.head []
    let headNode ← pageGet s s.flData.head
    Except.ok { s with flData := { s.flData with nodes := nodes.reverse,
                                                 total := flnSize headNode,
                                                 offset := 0 } }

/-- Go `flPop1`: take the next reusable pointer out of the tail node,
refusing pointers whose stored version is still reader-visible. -/
def flPop1 (s : TXState) : M (Nat × TXState) :=
  if s.flData.total = 0 then Except.ok (0, s)
  else do
    let n0 ← getAt s.flData.nodes 0
    let nd ← pageGet s n0
    if s.flData.offset < flnSize nd then
      let (ptr, ver) := flnItem nd s.flData.offset
      if versionBefore s.flMinReader ver then Except.ok (0, s)
      else
        let fl := { s.flData with offset := s.flData.offset + 1,
                                  total := s.flData.total - 1 }
        let fl := if flnSize nd ≤ fl.offset then
            { fl with nodes := fl.nodes.drop 1, offset := 0 }
          else fl
        Except.ok (ptr, { s with flData := fl })
    else Except.error "assertion failed"

/-- Go `FreeList.Pop`. -/
def flPop (s : TXState) : M (Nat × TXState) := do
  let s ← loadCache s
  flPop1 s

/-- Go `flPush`: emit free-list nodes holding the `freed` pointers,
taking node pages from `reuse` first, else appending. -/
def flPushGo : Nat → TXState → List Nat → List Nat → M TXState
  | 0, _, _, _ => Except.error "model: out of fuel"
  | _ + 1, s, [], _ => Except.ok s
  | fuel + 1, s, freed, reuse => do
    let size := min freed.length FREE_LIST_CAP
    let node : BNode := zeros BTREE_PAGE_SIZE
    let node := flnSetHeader node size s.flData.head
    let node := ((freed.take size).enum).foldl
      (fun (n : BNode) (p : Nat × Nat) => flnSetPtr n p.1 p.2) node
    match reuse with
    | r :: rs =>
      let s := pageUse s r node
      let s := { s with flData := { s.flData with head := r } }
      flPushGo fuel s (freed.drop size) rs
    | [] => do
      let (ptr, s) ← pageAppend s node
      let s := { s with flData := { s.flData with head := ptr } }
      flPushGo fuel s (freed.drop size) []

def flPush (s : TXState) (freed reuse : List Nat) : M TXState :=
  flPushGo (freed.length + 1) s freed reuse

/-- Walk of Go `FreeList.Total`: sum of node sizes along the list. -/
def flTotalWalk : Nat → TXState → Nat → Nat → M Nat
  | 0, _, _, _ => Except.error "model: out of fuel"
  | _ + 1, _, 0, acc => Except.ok acc
  | fuel + 1, s, curr, acc => do
    let node ← pageGet s curr
    flTotalWalk fuel s (flnNext node) (acc + flnSize node)

/-- Go `FreeList.Total`. -/
def flTotal (s : TXState) : M Nat :=
  if s.flData.head = 0 then Except.ok 0
  else flTotalWalk 64 s s.flData.head 0

/-- Go `FreeList.Add`: push the freed pointers and refresh the cached
total on the head node (an in-place mutation of the stored page). -/
def flAdd (s : TXState) (freed : List Nat) : M TXState :=
  if freed.length = 0 then Except.ok s
  else do
    let t ← flTotal s
    let total := t + freed.length
    let s ← flPush s freed []
    if s.flData.head ≠ 0 then do
      let nd ← pageGet s s.flData.head
      Except.ok (storeBack s s.flData.head (flnSetTotal nd total))
    else Except.ok s

/-! ## Copy-on-write B+ tree over the transaction state (part_012, part_004) -/

/-- Go `KVTX.pageNew`: prefer a reusable page from the free list, else
append; record the node in the dirty map either way. -/
def pageNew (s : TXState) (node : BNode) : M (Nat × TXState) :=
  if node.len ≤ BTREE_PAGE_SIZE then do
    let (ptr, s) ← flPop s
    let (ptr, s) ← if ptr = 0 then pageAppend s node else Except.ok (ptr, s)
    Except.ok (ptr, { s with updates := aset s.updates ptr (some node) })
  else Except.error "assertion failed"

/-- Kid-insertion loop of `nodeReplaceKidN`: allocate each kid page and
append (pointer, first key) entries at `idx ..`. -/
def replaceKidsLoop (s : TXState) (new : BNode) (idx : Nat) :
    List (Nat × BNode) → M (BNode × TXState)
  | [] => Except.ok (new, s)
  | (i, kid) :: rest => do
    let (ptr, s) ← pageNew s kid
    let k0 ← getKey kid 0
    let new ← nodeAppendKV new (idx + i) ptr k0 Bytes.nil
    replaceKidsLoop s new idx rest

/-- Go `nodeReplaceKidN`. -/
def nodeReplaceKidN (s : TXState) (new node : BNode) (idx : Nat) (kids : List BNode) :
    M (BNode × TXState) := do
  let inc := kids.length
  let new := setHeader new BNODE_INODE (nKeys node + inc - 1)
  let new ← nodeAppendRange new node 0 0 idx
  let (new, s) ← replaceKidsLoop s new idx kids.enum
  let new ← nodeAppendRange new node (idx + inc) (idx + 1) (nKeys node - (idx + 1))
  Except.ok (new, s)

/-- Go `treeInsert` / `nodeInsert` (mutually recursive in the source;
fused here with a fuel argument bounding the recursion depth). -/
def treeInsert : Nat → TXState → BNode → Bytes → Bytes → M (BNode × TXState)
  | 0, _, _, _, _ => Except.error "model: out of fuel"
  | fuel + 1, s, node, key, val => do
    let newNode : BNode := zeros (2 * BTREE_PAGE_SIZE)
    let idx ← nodeLookupLE node key
    if bNodeType node = BNODE_LEAF then do
      let k ← getKey node idx
      if key = k then do
        let n ← leafUpdate newNode node idx key val
        Except.ok (n, s)
      else do
        let n ← leafInsert newNode node (idx + 1) key val
        Except.ok (n, s)
    else if bNodeType node = BNODE_INODE then do
      -- body of nodeInsert
      let kptr ← getPtr node idx
      let knode ← pageGet s kptr
      let s := pageDel s kptr
      let (knode, s) ← treeInsert fuel s knode key val
      let (nsplit, splitted) ← nodeSplit3 knode
      nodeReplaceKidN s newNode node idx (splitted.take nsplit)
    else Except.error "bad node!!"

/-- Go `BTree.Insert` over the transaction state; the `Option String`
is the Go error value. -/
def btreeInsert (fuel : Nat) (s : TXState) (key val : Bytes) :
    M (Option String × TXState) :=
  if key.len = 0 ∨ BTREE_MAX_KEY_SIZE < key.len then
    Except.ok (some "key size not valid", s)
  else if BTREE_MAX_VAL_SIZE < val.len then
    Except.ok (some "val size exceeds the max size", s)
  else if s.treeRoot = 0 then do
    let root := setHeader (zeros BTREE_PAGE_SIZE) BNODE_LEAF 2
    let root ← nodeAppendKV root 0 0 Bytes.nil Bytes.nil
    let root ← nodeAppendKV root 1 0 key val
    let (ptr, s) ← pageNew s root
    Except.ok (none, { s with treeRoot := ptr })
  else do
    let node ← pageGet s s.treeRoot
    let s := pageDel s s.treeRoot
    let (node, s) ← treeInsert fuel s node key val
    let (nsplit, splitted) ← nodeSplit3 node
    if 1 < nsplit then do
      let root := setHeader (zeros BTREE_PAGE_SIZE) BNODE_INODE nsplit
      let (root, s) ← replaceKidsLoop s root 0 (splitted.take nsplit).enum
      let (ptr, s) ← pageNew s root
      Except.ok (none, { s with treeRoot := ptr })
    else do
      let first ← getAt splitted 0
      let (ptr, s) ← pageNew s first
      Except.ok (none, { s with treeRoot := ptr })

/-- Go `shouldMerge`: decide whether the updated kid merges with its
left (-1) or right (+1) sibling. -/
def shouldMerge (s : TXState) (node : BNode) (idx : Nat) (updated : BNode) :
    M (Int × BNode) := do
  let nb ← nbytes updated
  if BTREE_PAGE_SIZE / 4 < nb then Except.ok (0, Bytes.nil)
  else do
    let leftRes ←
      if 0 < idx then do
        let p ← getPtr node (idx - 1)
        let sib ← pageGet s p
        let sb ← nbytes sib
        if sb + nb - HEADER ≤ BTREE_PAGE_SIZE then Except.ok (some sib)
        else Except.ok none
      else Except.ok none
    match leftRes with
    | some sib => Except.ok (-1, sib)
    | none =>
      if idx + 1 < nKeys node then do
        let p ← getPtr node (idx + 1)
        let sib ← pageGet s p
        let sb ← nbytes sib
        if sb + nb - HEADER ≤ BTREE_PAGE_SIZE then Except.ok (1, sib)
        else Except.ok (0, Bytes.nil)
      else Except.ok (0, Bytes.nil)

/-- Go `treeDelete` / `nodeDelete` (fused, fuel-bounded); a zero-length
node result is Go's `BNode{}` "key not found" sentinel. -/
def treeDelete : Nat → TXState → BNode → Bytes → M (BNode × TXState)
  | 0, _, _, _ => Except.error "model: out of fuel"
  | fuel + 1, s, node, key => do
    let idx ← nodeLookupLE node key
    if bNodeType node = BNODE_LEAF then do
      let k ← getKey node idx
      if key ≠ k then Except.ok (Bytes.nil, s)
      else do
        let new ← leafDelete (zeros BTREE_PAGE_SIZE) node idx
        Except.ok (new, s)
    else if bNodeType node = BNODE_INODE then do
      -- body of nodeDelete
      let kptr ← getPtr node idx
      let child ← pageGet s kptr
      let (updated, s) ← treeDelete fuel s child key
      if updated.len = 0 then Except.ok (Bytes.nil, s)
      else do
        let s := pageDel s kptr
        let new : BNode := zeros BTREE_PAGE_SIZE
        let (mergeDir, sibling) ← shouldMerge s node idx updated
        if mergeDir < 0 then do
          let merged ← nodeMerge (zeros BTREE_PAGE_SIZE) sibling updated
          let lp ← getPtr node (idx - 1)
          let s := pageDel s lp
          let (mp, s) ← pageNew s merged
          let k0 ← getKey merged 0
          let new ← nodeReplace2Kid new node (idx - 1) mp k0
          Except.ok (new, s)
        else if 0 < mergeDir then do
          let merged ← nodeMerge (zeros BTREE_PAGE_SIZE) sibling updated
          let rp ← getPtr node (idx + 1)
          let s := pageDel s rp
          let (mp, s) ← pageNew s merged
          let k0 ← getKey merged 0
          let new ← nodeReplace2Kid new node idx mp k0
          Except.ok (new, s)
        else nodeReplaceKidN s new node idx [updated]
    else Except.error "bad node!!"

/-- Go `BTree.Delete` over the transaction state. -/
def btreeDelete (fuel : Nat) (s : TXState) (key : Bytes) : M (Bool × TXState) :=
  if key.len = 0 ∨ BTREE_MAX_KEY_SIZE < key.len then
    Except.error "assertion failed"
  else if s.treeRoot = 0 then Except.ok (false, s)
  else do
    let node ← pageGet s s.treeRoot
    let (updated, s) ← treeDelete fuel s node key
    if updated.len = 0 then Except.ok (false, s)
    else do
      let s := pageDel s s.treeRoot
      if bNodeType updated = BNODE_INODE ∧ nKeys updated = 1 then do
        let p ← getPtr updated 0
        Except.ok (true, { s with treeRoot := p })
      else do
        let (ptr, s) ← pageNew s updated
        Except.ok (true, { s with treeRoot := ptr })

/-- Descent loop of Go `BTree.Get`. -/
def btreeGetLoop : Nat → TXState → BNode → Bytes → M (Bytes × Bool)
  | 0, _, _, _ => Except.error "model: out of fuel"
  | fuel + 1, s, node, key => do
    let idx ← nodeLookupLE node key
    if bNodeType node = BNODE_LEAF then do
      let k ← getKey node idx
      if k = key then do
        let v ← getVal node idx
        Except.ok (v, true)
      else Except.ok (Bytes.nil, false)
    else if bNodeType node = BNODE_INODE then do
      let p ← getPtr node idx
      let child ← pageGet s p
      btreeGetLoop fuel s child key
    else Except.error "bad node type"

/-- Go `BTree.Get` over the transaction state; the `Option String` is
the Go error value (invalid key size). -/
def btreeGet (fuel : Nat) (s : TXState) (key : Bytes) :
    M (Bytes × Bool × Option String) :=
  if key.len = 0 ∨ BTREE_MAX_KEY_SIZE < key.len then
    Except.ok (Bytes.nil, false, some "key size is not valid")
  else if s.treeRoot = 0 then Except.ok (Bytes.nil, false, none)
  else do
    let node ← pageGet s s.treeRoot
    let (v, found) ← btreeGetLoop fuel s node key
    Except.ok (v, found, none)

/-! ## Flush, master page, and the KVTX surface (part_004,
src/database/filodb_transactions.go) -/

/-- Recursion depth bound used by the tree operations of the model (the
Go loops are unbounded; any bound larger than the tree depth in the
executions below is equivalent). -/
def FUEL : Nat := 64

/-- The byte string of the constant `DB_SIG` ("FiloDB" plus two NULs). -/
def DB_SIG_BYTES : Bytes := bytesOfList [70, 105, 108, 111, 68, 66, 0, 0]

/-- The 32 bytes written by Go `masterStore`: signature, tree root,
flushed page count, and free-list head, all little-endian. -/
def masterBytes (kv : KVState) : Bytes :=
  bapp (bapp (bapp DB_SIG_BYTES (leB 8 (kv.root % 2 ^ 64)))
    (leB 8 (kv.flushed % 2 ^ 64))) (leB 8 (kv.free.head % 2 ^ 64))

/-- Go `masterStore`: positional write of the master page to the file. -/
def masterStore (kv : KVState) : KVState :=
  { kv with disk := kv.disk ++ [DiskEv.master (masterBytes kv)] }

def fsync (kv : KVState) : KVState :=
  { kv with disk := kv.disk ++ [DiskEv.fsync] }

/-- Go `writePages`: queue deallocated pages on the free list, then
copy every dirty page into the mmap region (file-backed, `MAP_SHARED`,
so the copies are file writes); mmap/file growth is geometry only and
is not tracked by the model. -/
def writePages (s : TXState) : M TXState := do
  let freed := s.updates.filterMap (fun p => if p.2 = none then some p.1 else none)
  let s ← flAdd s freed
  let pages := s.updates.filterMap (fun p => p.2.map (fun d => (p.1, d)))
  Except.ok (pages.foldl (fun (s : TXState) (pd : Nat × BNode) =>
    { s with kv := { s.kv with mapped := aset s.kv.mapped pd.1 pd.2,
                               disk := s.kv.disk ++ [DiskEv.page pd.1] } }) s)

/-- Go `syncPages`: fsync, advance the shared flushed count, clear the
dirty map (`nappend` is not reset by the source), then write the master
page and fsync again. -/
def syncPages (s : TXState) : M TXState := do
  let s := { s with kv := fsync s.kv }
  let s := { s with kv := { s.kv with flushed := s.kv.flushed + s.nappend },
                    updates := [] }
  let s := { s with kv := masterStore s.kv }
  Except.ok { s with kv := fsync s.kv }

/-- Go `flushPages` (called from `KVTX.Set` and `KVTX.Delete`). -/
def flushPages (s : TXState) : M TXState := do
  let s ← writePages s
  syncPages s

/-- Go `KVTX.Get`. -/
def kvtxGet (s : TXState) (key : Bytes) : M (Bytes × Bool × Option String) :=
  btreeGet FUEL s key

/-- Go `KVTX.Set`: insert (its Go error value is discarded by the
source) and then flush. -/
def kvtxSet (s : TXState) (key val : Bytes) : M TXState := do
  let (_, s) ← btreeInsert FUEL s key val
  flushPages s

/-- Go `KVTX.Delete`: result is (deleted, Go error, captured old value). -/
def kvtxDelete (s : TXState) (key : Bytes) :
    M ((Bool × Option String × Bytes) × TXState) := do
  let (val, _, err) ← kvtxGet s key
  if err ≠ none then Except.ok ((false, err, Bytes.nil), s)
  else if val.len = 0 then Except.ok ((false, some "record not found", Bytes.nil), s)
  else do
    let (deleted, s) ← btreeDelete FUEL s key
    let old := if deleted then val else Bytes.nil
    let s ← flushPages s
    Except.ok ((deleted, none, old), s)

def MODE_UPSERT : Nat := 0
def MODE_UPDATE_ONLY : Nat := 1
def MODE_INSERT_ONLY : Nat := 2

/-- Result of `KVTX.SetWithMode`: the returned bool, the returned Go
error, and the `InsertReq` out-fields it sets. -/
structure SWM where
  ret : Bool
  goErr : Option String
  added : Bool
  updated : Bool
  old : Bytes
  deriving Repr, DecidableEq

/-- Go `KVTX.SetWithMode`. -/
def setWithMode (s : TXState) (mode : Nat) (key val : Bytes) : M (SWM × TXState) :=
  if mode = MODE_UPDATE_ONLY then do
    let (old, ex, err) ← kvtxGet s key
    if err ≠ none then Except.ok (⟨false, err, false, false, Bytes.nil⟩, s)
    else if ex then do
      let s ← kvtxSet s key val
      Except.ok (⟨true, none, false, true, old⟩, s)
    else Except.ok (⟨false, some "record not found", false, false, Bytes.nil⟩, s)
  else if mode = MODE_UPSERT then do
    let (old, ex, _) ← kvtxGet s key
    let s ← kvtxSet s key val
    Except.ok (⟨true, none, false, true, if ex then old else Bytes.nil⟩, s)
  else if mode = MODE_INSERT_ONLY then do
    let (_, ex, err) ← kvtxGet s key
    if err ≠ none then Except.ok (⟨false, err, false, false, Bytes.nil⟩, s)
    else if !ex then do
      let s ← kvtxSet s key val
      Except.ok (⟨true, none, true, false, Bytes.nil⟩, s)
    else Except.ok (⟨false, some "record already exists", false, false, Bytes.nil⟩, s)
  else Except.ok (⟨false, some "invalid update mode", false, false, Bytes.nil⟩, s)

/-- The `KV` state after opening an empty database file (`masterLoad`
with a zero-size file: page 0 reserved, nothing on disk yet). -/
def freshKV : KVState :=
  { root := 0, flushed := 1, version := 0, free := ⟨0, [], 0, 0⟩, mapped := [], disk := [] }

/-- Go `KV.Begin` (no registered readers, so `minReader` is the
writer's version). -/
def kvBegin (kv : KVState) : TXState :=
  { kv := kv, txVersion := kv.version, treeRoot := kv.root, updates := [],
    nappend := 0, flData := kv.free, flVersion := kv.version,
    flMinReader := kv.version }

/-- Go `KV.Commit`: no-op when the root is unchanged; otherwise write
pages, fsync, publish root / version / freelist / page count, write the
master page, fsync. -/
def kvCommit (s : TXState) : M KVState :=
  if s.kv.root = s.treeRoot then Except.ok s.kv
  else do
    let s ← writePages s
    let s := { s with kv := fsync s.kv }
    let kv := { s.kv with flushed := s.kv.flushed + s.nappend,
                          free := s.flData,
                          root := s.treeRoot,
                          version := s.kv.version + 1 }
    let kv := masterStore kv
    Except.ok (fsync kv)

/-- Go `KV.Abort`: releases the writer lock and nothing else; the
shared `KV` state is left exactly as it is. -/
def kvAbort (s : TXState) : KVState := s.kv

/-! ## Table operations and index maintenance (part_004, part_011) -/

def INDEX_ADD : Nat := 1
def INDEX_DEL : Nat := 2

/-- Go `Record.Get` (a nil pointer when the column is absent). -/
def recGet (rec : Record) (col : String) : Option Value :=
  (rec.cols.indexOf? col).bind (fun i => rec.vals.get? i)

/-- Per-index body of `indexOp`: build the index key from the record,
then add (upsert with an empty value) or delete the entry; the Go code
ignores the returned error but asserts the returned bool. -/
def indexOpStep (tdef : TableDef) (rec : Record) (op : Nat) (s : TXState)
    (i : Nat) (index : List String) : M TXState := do
  let irec ← index.mapM (fun c =>
    match recGet rec c with
    | some v => Except.ok v
    | none => Except.error "nil pointer dereference")
  let pfx ← getAt tdef.indexPfx i
  let keyL ← encodeKey [] pfx irec
  let key := bytesOfList keyL
  let (done, s) ←
    if op = INDEX_ADD then do
      let (swm, s) ← setWithMode s MODE_UPSERT key Bytes.nil
      Except.ok (swm.ret, s)
    else if op = INDEX_DEL then do
      let ((deleted, _, _), s) ← kvtxDelete s key
      Except.ok (deleted, s)
    else Except.error "invalid index op"
  if done then Except.ok s else Except.error "assertion failed"

/-- Go `indexOp`: maintain every secondary index entry for `rec`. -/
def indexOp (tdef : TableDef) (rec : Record) (op : Nat) (s : TXState) : M TXState :=
  tdef.indexes.enum.foldlM (fun s p => indexOpStep tdef rec op s p.1 p.2) s

/-- Go `dbUpdate`: validate, encode, write with the requested mode,
then maintain the secondary indexes; result is (added, Go error). -/
def dbUpdate (tdef : TableDef) (rec : Record) (mode : Nat) (s : TXState) :
    M ((Bool × Option String) × TXState) := do
  let cr ← checkRecord tdef rec tdef.cols.length
  match cr with
  | Except.error e => Except.ok ((false, some e), s)
  | Except.ok values => do
    let ok ← validateTableTypes tdef rec
    if !ok then Except.ok ((false, some "invalid type"), s)
    else do
      let keyL ← encodeKey [] tdef.pfx (values.take tdef.pkeys)
      let valsL ← encodeValues [] (values.drop tdef.pkeys)
      let (swm, s) ← setWithMode s mode (bytesOfList keyL) (bytesOfList valsL)
      if swm.goErr ≠ none ∨ tdef.indexes.length = 0 then
        Except.ok ((swm.added, swm.goErr), s)
      else do
        let s ←
          if swm.updated ∧ ¬ swm.added then do
            let oldTail ← decodeValues (listOfBytes swm.old) (values.drop tdef.pkeys)
            indexOp tdef ⟨tdef.cols, values.take tdef.pkeys ++ oldTail⟩ INDEX_DEL s
          else Except.ok s
        let s ←
          if swm.updated ∨ swm.added then indexOp tdef rec INDEX_ADD s
          else Except.ok s
        Except.ok ((swm.added, none), s)

/-- Go `dbDelete`: delete the primary row, then use the captured old
value to delete every index entry; result is (deleted, Go error). -/
def dbDelete (tdef : TableDef) (rec : Record) (s : TXState) :
    M ((Bool × Option String) × TXState) := do
  let cr ← checkRecord tdef rec tdef.pkeys
  match cr with
  | Except.error e => Except.ok ((false, some e), s)
  | Except.ok values => do
    let keyL ← encodeKey [] tdef.pfx (values.take tdef.pkeys)
    let ((deleted, err, old), s) ← kvtxDelete s (bytesOfList keyL)
    if err ≠ none ∨ !deleted ∨ tdef.indexes.length = 0 then
      Except.ok ((deleted, err), s)
    else do
      let positions := List.range' tdef.pkeys (tdef.cols.length - 2 * tdef.pkeys + 1)
      let values ← positions.foldlM (fun (vs : List Value) i => do
        let t ← getAt tdef.types i
        Except.ok (vs.set i ⟨t, 0, []⟩)) values
      let oldTail ← decodeValues (listOfBytes old) (values.drop tdef.pkeys)
      let s ← indexOp tdef ⟨tdef.cols, values.take tdef.pkeys ++ oldTail⟩ INDEX_DEL s
      Except.ok ((deleted, none), s)

/-! ## Concrete states and inputs used by the verification -/

/-- Packed form of `L` repetitions of the byte `b` (a geometric sum). -/
def repB (L b : Nat) : Bytes := ⟨L, b * (256 ^ L - 1) / 255⟩

/-- The "prices" schema of the repository's own `TestNewDataTypes`
test: an INT64 primary key and one FLOAT64 (type id 3) column. -/
def tdefPrices : TableDef := ⟨"prices", [1, 3], ["id", "price"], 1, [], 0, []⟩

/-- A schema with zero primary-key columns. -/
def tdefPK0 : TableDef := ⟨"t", [1, 2], ["a", "b"], 0, [], 0, []⟩

/-- A three-column schema with one secondary index (already rewritten
to carry the primary key, as `checkIndexKeys` produces). -/
def tdefItems : TableDef :=
  ⟨"items", [1, 2, 2], ["id", "name", "email"], 1, [["name", "id"]], 100, [101]⟩

/-- A complete row for `tdefItems` ("John" / "j@x" as byte lists). -/
def recItem : Record :=
  ⟨["id", "name", "email"],
   [mkI64 1, mkStr [74, 111, 104, 110], mkStr [106, 64, 120]]⟩

/-- The "users" schema of the repository's tests (id, name, email). -/
def tdefUsers : TableDef := ⟨"users", [1, 2, 2], ["id", "name", "email"], 1, [], 100, []⟩

/-- A complete, correctly typed row for `tdefUsers` whose columns are
listed in the order name, id, email instead of schema order. -/
def recPerm : Record :=
  ⟨["name", "id", "email"],
   [mkStr [74, 111, 104, 110], mkI64 1, mkStr [106, 64, 120]]⟩

/-- A free-list node holding exactly one (pointer 9, version 3) pair in
the on-disk format documented by part_006. -/
def popNode : BNode :=
  writeBytes (flnSetTotal (flnSetHeader (zeros BTREE_PAGE_SIZE) 1 0) 1) 20
    (bapp (leB 8 9) (leB 8 3))

/-- A write transaction begun at version 3 whose free list consists of
`popNode` at page 2 (so `minReader = 3`). -/
def popTX : TXState :=
  kvBegin { freshKV with version := 3, free := ⟨2, [], 0, 0⟩, mapped := [(2, popNode)] }

/-! ## The root node produced by the first insert into an empty tree,
and the transaction states after `BTree.Insert` and `KVTX.Set` on a
fresh database -/

/-- The concrete node built by `BTree.Insert` on an empty tree after
`setHeader(LEAF, 2)` and the first `nodeAppendKV` (the synthetic
minimum entry at index 0). -/
def rootBase : BNode :=
  match nodeAppendKV (setHeader (zeros BTREE_PAGE_SIZE) BNODE_LEAF 2) 0 0
      Bytes.nil Bytes.nil with
  | Except.ok b => b
  | Except.error _ => Bytes.nil

def rootB2 : BNode := writeBytes rootBase 12 (leB 8 0)

def nw1 (key : Bytes) : BNode := writeBytes rootB2 28 (leB 2 key.len)

def nw2 (key val : Bytes) : BNode := writeBytes (nw1 key) 30 (leB 2 val.len)

def nw3 (key val : Bytes) : BNode := writeBytes (nw2 key val) 32 key

def nw4 (key val : Bytes) : BNode := writeBytes (nw3 key val) (32 + key.len) val

def rootWith (key val : Bytes) : BNode :=
  writeBytes (nw4 key val) 22 (leB 2 (8 + key.len + val.len))

def sFin (key val : Bytes) : TXState :=
  { kv := freshKV, txVersion := 0, treeRoot := 1,
    updates := [(1, some (rootWith key val))], nappend := 1,
    flData := freshKV.free, flVersion := 0, flMinReader := 0 }

/-- The shared `KV` and transaction state after `KVTX.Set` (which calls
`flushPages`) of `(key, val)` on a fresh database: the page and the
master page are already on disk, the dirty map is cleared and the
shared flushed count advanced, although no commit ran. -/
def sFlush (key val : Bytes) : TXState :=
  { kv := { root := 0, flushed := 2, version := 0, free := freshKV.free,
            mapped := [(1, rootWith key val)],
            disk := [DiskEv.page 1, DiskEv.fsync,
                     DiskEv.master (masterBytes { freshKV with flushed := 2 }),
                     DiskEv.fsync] },
    txVersion := 0, treeRoot := 1, updates := [], nappend := 1,
    flData := freshKV.free, flVersion := 0, flMinReader := 0 }

/-! ## Claim theorems -/

/-- C1: the claim states that when an insert makes a node exceed
`PAGE_SIZE`, the splitter produces up to three nodes each fitting in
one page. In the code, `nodeSplit2` never writes the headers of its two
fresh output nodes (and sizes the right copy as `nKeys-1`), so the
first `nodeAppendRange` inside it trips the assertion
`dst+num <= new.nKeys()` and the program panics instead of splitting:
inserting a second maximum-size pair (1000-byte key, 3000-byte value)
into the tree aborts with that assertion failure, as does `nodeSplit3`
on the oversized 8046-byte leaf that the insert builds. -/
theorem c1_splitter_panics_on_oversized_node :
    (do
      let s ← kvtxSet (kvBegin freshKV) (repB 1000 65) (repB 3000 66)
      kvtxSet s (repB 1000 67) (repB 3000 68) : M TXState) =
      Except.error "Failed in nodeAppendRange dst+num <= old.nkeys()"
    ∧ (do
      let s ← kvtxSet (kvBegin freshKV) (repB 1000 65) (repB 3000 66)
      let node ← pageGetMapped s 1
      let big ← leafInsert (zeros (2 * BTREE_PAGE_SIZE)) node 2 (repB 1000 67) (repB 3000 68)
      nbytes big : M Nat) = Except.ok 8046 := by
  exact ⟨rfl, rfl⟩

/-- C2: the claim states that `decode(encode(v)) = v` for every BYTES
value, including those whose first byte is 0xFE or 0xFF. In the code,
`escapeString` applies its leading-0xFE escape only when the string
also contains a 0x00/0x01 byte while `unEscapeString` strips a leading
0xFE unconditionally, so decoding the encoding of [0xFE, 0x42] yields
[0x42]; and on a string that triggers both rules ([0xFE, 0x00]) the
escape buffer is one byte too small and `escapeString` panics with an
index-out-of-range error. -/
theorem c2_bytes_roundtrip_fails :
    (do
      let e ← encodeValues [] [mkStr [0xfe, 0x42]]
      decodeValues e [⟨TYPE_BYTES, 0, []⟩] : M (List Value)) =
      Except.ok [⟨TYPE_BYTES, 0, [0x42]⟩]
    ∧ ([0x42] : List Nat) ≠ [0xfe, 0x42]
    ∧ escapeString [0xfe, 0x00] = Except.error "index out of range" := by
  refine ⟨rfl, by decide, rfl⟩

/-- C4 counterexample: the claim states that no page data or
master-page bytes are written to the database file before commit, and
that abort leaves the on-disk state at the previously committed
version. In the code `KVTX.Set` calls `flushPages`, which copies the
dirty page into the file-backed mmap, fsyncs, writes the master page
and fsyncs again — all before any `Commit`; `Abort` only unlocks, so
after aborting this uncommitted transaction the file still carries the
page write and the master write, and the shared flushed count has
advanced from 1 to 2. -/
theorem c4_set_writes_before_commit :
    (kvtxSet (kvBegin freshKV) ⟨1, 65⟩ ⟨1, 66⟩).map
        (fun s => (s.kv.disk, (kvAbort s).disk, (kvAbort s).flushed, (kvAbort s).root)) =
      Except.ok
        ([DiskEv.page 1, DiskEv.fsync,
          DiskEv.master (masterBytes { freshKV with flushed := 2 }), DiskEv.fsync],
         [DiskEv.page 1, DiskEv.fsync,
          DiskEv.master (masterBytes { freshKV with flushed := 2 }), DiskEv.fsync],
         2, 0) := by
  exact rfl

/-- C5: the claim states that the master page persisted at every
successful commit contains a current version number field consistent
with the in-memory state. In the code, `masterStore` writes only 32
bytes — signature, root, page count and free-list head — and no
version at all (contradicting the master-page format comment right
above it), so the persisted master bytes are identical for any two
states that differ only in their version counter. -/
theorem c5_master_page_omits_version :
    (∀ kv : KVState, ∀ v₁ v₂ : Nat,
      masterBytes { kv with version := v₁ } = masterBytes { kv with version := v₂ })
    ∧ (masterBytes { freshKV with version := 5 }).len = 32
    ∧ masterStore { freshKV with version := 5 } =
        { freshKV with version := 5,
                       disk := [DiskEv.master (masterBytes { freshKV with version := 5 })] } := by
  exact ⟨fun kv v₁ v₂ => rfl, rfl, rfl⟩

/-- C6: the claim states that `free.add` records each freed page
number together with the current writer version and that `free.pop`
reuses a page only when its recorded free-version is strictly less
than `minReaderVersion`. In the code `flPush` writes bare 8-byte
pointers with no version (while `flnItem` reads 16-byte pairs per the
documented node format), so after `Add([5, 7])` the stored "item 0" is
the pair (5, 7) — the second freed page number sits in the version
slot — for every writer version; and `flPop1` hands out a page whose
recorded version equals `minReader` (9 is returned although its stored
version 3 is not strictly less than `minReader = 3`). -/
theorem c6_freelist_versions_not_recorded :
    ((do
        let s ← flAdd (kvBegin { freshKV with version := 42 }) [5, 7]
        let nd ← pageGet s s.flData.head
        Except.ok (s.flData.head, flnSize nd, flnItem nd 0) : M (Nat × Nat × Nat × Nat)) =
        Except.ok (1, 2, 5, 7))
    ∧ ((do
        let s ← flAdd (kvBegin { freshKV with version := 9999 }) [5, 7]
        let nd ← pageGet s s.flData.head
        Except.ok (flnItem nd 0) : M (Nat × Nat)) = Except.ok (5, 7))
    ∧ (flPop popTX).map (fun r => r.1) = Except.ok 9
    ∧ versionBefore 3 3 = false
    ∧ versionBefore 2 3 = true := by
  exact ⟨rfl, rfl, rfl, rfl, rfl⟩

/-- C8: the claim states that table creation accepts any schema whose
type ids are within the set of §3 (INT64, BYTES, FLOAT64, BOOLEAN,
DATETIME) and rejects a primary-key column count different from 1. In
the code, `tableDefCheck` rejects every type id other than INT64 (1)
and BYTES (2) — it rejects the FLOAT64 schema that the repository's
own `TestNewDataTypes` expects to be created — and it only rejects
`PKeys > 1`, accepting a primary-key count of 0. -/
theorem c8_tabledefcheck_rejects_float64_accepts_pk0 :
    tableDefCheck tdefPrices = Except.error "invalid data type for column price"
    ∧ tableDefCheck tdefPK0 = Except.ok tdefPK0 := by
  exact ⟨rfl, rfl⟩

/-- C3: the claim states that deleting an existing row of a table with
secondary indexes succeeds and removes every index entry computed from
the captured old value. In the code, index entries are written with
empty values (`InsertReq{Key: key}`), and `KVTX.Delete` treats a
zero-length stored value as "record not found", so deleting an index
entry always returns (false, error) and `indexOp`'s `assert(done)`
panics: inserting the row (1, "John", "j@x") into a table with index
[name] and then deleting it aborts with an assertion failure, and the
direct delete of the (present) index entry reports "record not found"
instead of removing it. -/
theorem c3_delete_with_index_panics :
    (dbUpdate tdefItems recItem MODE_INSERT_ONLY (kvBegin freshKV)).map (fun r => r.1) =
      Except.ok (true, none)
    ∧ (do
        let (_, s) ← dbUpdate tdefItems recItem MODE_INSERT_ONLY (kvBegin freshKV)
        dbDelete tdefItems recItem s : M ((Bool × Option String) × TXState)) =
      Except.error "assertion failed"
    ∧ (do
        let (_, s) ← dbUpdate tdefItems recItem MODE_INSERT_ONLY (kvBegin freshKV)
        let keyL ← encodeKey [] 101 [mkStr [74, 111, 104, 110], mkI64 1]
        let (g, found, _) ← kvtxGet s (bytesOfList keyL)
        let (r, _) ← kvtxDelete s (bytesOfList keyL)
        Except.ok (g.len, found, r) : M (Nat × Bool × Bool × Option String × Bytes)) =
      Except.ok (0, true, false, some "record not found", Bytes.nil) := by
  exact ⟨rfl, rfl, rfl⟩

/-- C7: for every key, a write in insertOnly mode fails with "record
already exists" when the key is present and otherwise writes; a write
in updateOnly mode fails with "record not found" when the key is
absent and otherwise writes; a write in upsert mode always writes —
exactly as `SetWithMode` behaves given what `KVTX.Get` reports for the
key (writing means delegating to `KVTX.Set` on the same key/value). -/
theorem c7_write_modes (s : TXState) (key val old : Bytes) (found : Bool)
    (hget : kvtxGet s key = Except.ok (old, found, none)) :
    (found = true →
      setWithMode s MODE_INSERT_ONLY key val =
        Except.ok (⟨false, some "record already exists", false, false, Bytes.nil⟩, s)
      ∧ setWithMode s MODE_UPDATE_ONLY key val =
        (kvtxSet s key val).map (fun s' => (⟨true, none, false, true, old⟩, s')))
    ∧ (found = false →
      setWithMode s MODE_INSERT_ONLY key val =
        (kvtxSet s key val).map (fun s' => (⟨true, none, true, false, Bytes.nil⟩, s'))
      ∧ setWithMode s MODE_UPDATE_ONLY key val =
        Except.ok (⟨false, some "record not found", false, false, Bytes.nil⟩, s))
    ∧ setWithMode s MODE_UPSERT key val =
      (kvtxSet s key val).map (fun s' =>
        (⟨true, none, false, true, if found then old else Bytes.nil⟩, s')) := by
  refine ⟨fun hf => ?_, fun hf => ?_, ?_⟩
  · subst hf
    refine ⟨?_, ?_⟩
    · simp only [setWithMode, MODE_INSERT_ONLY, MODE_UPDATE_ONLY, MODE_UPSERT, hget]
      rfl
    · cases h : kvtxSet s key val <;>
        · simp only [setWithMode, MODE_INSERT_ONLY, MODE_UPDATE_ONLY, MODE_UPSERT, hget, h]
          rfl
  · subst hf
    refine ⟨?_, ?_⟩
    · cases h : kvtxSet s key val <;>
        · simp only [setWithMode, MODE_INSERT_ONLY, MODE_UPDATE_ONLY, MODE_UPSERT, hget, h]
          rfl
    · simp only [setWithMode, MODE_INSERT_ONLY, MODE_UPDATE_ONLY, MODE_UPSERT, hget]
      rfl
  · cases h : kvtxSet s key val <;> cases found <;>
      · simp only [setWithMode, MODE_INSERT_ONLY, MODE_UPDATE_ONLY, MODE_UPSERT, hget, h]
        rfl

/-- A transaction on a fresh store holding exactly the pair
([0x41], [0x42]), used to instantiate `c7_write_modes`. -/
def witTX : TXState :=
  ((kvtxSet (kvBegin freshKV) ⟨1, 65⟩ ⟨1, 66⟩).toOption).getD (kvBegin freshKV)

/-- Witness for C7: `c7_write_modes` applied to a concrete store where
key [0x41] is present (with value [0x42]) and key [0x46] is absent. -/
theorem c7_write_modes_witness :
    setWithMode witTX MODE_INSERT_ONLY ⟨1, 65⟩ ⟨1, 99⟩ =
      Except.ok (⟨false, some "record already exists", false, false, Bytes.nil⟩, witTX)
    ∧ setWithMode witTX MODE_UPDATE_ONLY ⟨1, 70⟩ ⟨1, 99⟩ =
      Except.ok (⟨false, some "record not found", false, false, Bytes.nil⟩, witTX)
    ∧ setWithMode witTX MODE_UPSERT ⟨1, 65⟩ ⟨1, 99⟩ =
      (kvtxSet witTX ⟨1, 65⟩ ⟨1, 99⟩).map
        (fun s' => (⟨true, none, false, true, ⟨1, 66⟩⟩, s')) := by
  refine ⟨((c7_write_modes witTX ⟨1, 65⟩ ⟨1, 99⟩ ⟨1, 66⟩ true rfl).1 rfl).1,
          ((c7_write_modes witTX ⟨1, 70⟩ ⟨1, 99⟩ Bytes.nil false rfl).2.1 rfl).2,
          (c7_write_modes witTX ⟨1, 65⟩ ⟨1, 99⟩ ⟨1, 66⟩ true rfl).2.2⟩

/-- The `getAt` read of an in-range index is the `getD` of the list. -/
lemma getAt_eq_getD {α : Type} (d : α) (xs : List α) (i : Nat) (h : i < xs.length) :
    getAt xs i = Except.ok (xs.getD i d) := by
  unfold getAt
  cases h' : xs.get? i with
  | none => exact absurd (List.get?_eq_none.mp h') (by omega)
  | some a =>
    have : xs.getD i d = a := by
      simp [List.getD, ← List.get?_eq_getElem?, h']
    rw [this]

/-- The loop of `validateTableTypes` succeeds with `true` exactly when
every remaining position carries the schema's type at that position. -/
lemma vttLoop_spec (types : List Nat) (vals : List Value) :
    ∀ (cs : List String) (i : Nat), i + cs.length ≤ vals.length →
      i + cs.length ≤ types.length →
    (vttLoop types vals cs i = Except.ok true ↔
      ∀ j, j < cs.length → (vals.getD (i + j) Value.zero).typ = types.getD (i + j) 0)
  | [], i, _, _ => by
    constructor
    · intro _ j hj
      exact absurd hj (by simp)
    · intro _
      rfl
  | c :: cs, i, hv, ht => by
    have hlen : (c :: cs).length = cs.length + 1 := List.length_cons c cs
    have hiv : i < vals.length := by omega
    have hit : i < types.length := by omega
    have ihv : (i + 1) + cs.length ≤ vals.length := by omega
    have iht : (i + 1) + cs.length ≤ types.length := by omega
    have ih := vttLoop_spec types vals cs (i + 1) ihv iht
    unfold vttLoop
    rw [getAt_eq_getD Value.zero vals i hiv, getAt_eq_getD 0 types i hit]
    show (if (vals.getD i Value.zero).typ ≠ types.getD i 0 then Except.ok false
          else vttLoop types vals cs (i + 1)) = Except.ok true ↔ _
    by_cases hne : (vals.getD i Value.zero).typ = types.getD i 0
    · rw [if_neg (by simpa using hne)]
      rw [ih]
      constructor
      · intro hall j hj
        cases j with
        | zero => simpa using hne
        | succ j' =>
          have := hall j' (by simpa using hj)
          simpa [Nat.add_comm, Nat.add_assoc, Nat.add_left_comm] using this
      · intro hall j hj
        have := hall (j + 1) (by simpa using hj)
        simpa [Nat.add_comm, Nat.add_assoc, Nat.add_left_comm] using this
    · rw [if_pos (by simpa using hne)]
      simp only [Except.ok.injEq, Bool.false_eq_true, false_iff]
      intro hall
      exact hne (by simpa using hall 0 (by omega))

/-- C10: `dbUpdate`'s type check is positional — `validateTableTypes`
accepts a record exactly when every position's value type equals the
schema type at the same position — so the complete, correctly typed
record `recPerm`, which lists the columns of `tdefUsers` in the order
name, id, email, is rejected by `dbUpdate` with "invalid type" in every
mode, even though `checkRecord` itself accepts it and reorders its
values into schema order. -/
theorem c10_type_check_is_positional (tdef : TableDef) (rec : Record)
    (h1 : rec.cols.length ≤ rec.vals.length) (h2 : rec.cols.length ≤ tdef.types.length) :
    (validateTableTypes tdef rec = Except.ok true ↔
      ∀ j, j < rec.cols.length → (rec.vals.getD j Value.zero).typ = tdef.types.getD j 0)
    ∧ (∀ (mode : Nat) (s : TXState),
        dbUpdate tdefUsers recPerm mode s = Except.ok ((false, some "invalid type"), s))
    ∧ checkRecord tdefUsers recPerm 3 =
        Except.ok (Except.ok [mkI64 1, mkStr [74, 111, 104, 110], mkStr [106, 64, 120]]) := by
  refine ⟨?_, fun mode s => rfl, rfl⟩
  have h := vttLoop_spec tdef.types rec.vals rec.cols 0 (by omega) (by omega)
  simpa [validateTableTypes] using h

/-- Witness for C10: the theorem instantiated at `tdefUsers` and the
permuted record `recPerm`, whose length hypotheses hold by computation. -/
theorem c10_type_check_is_positional_witness :
    (validateTableTypes tdefUsers recPerm = Except.ok true ↔
      ∀ j, j < recPerm.cols.length →
        (recPerm.vals.getD j Value.zero).typ = tdefUsers.types.getD j 0)
    ∧ (∀ (mode : Nat) (s : TXState),
        dbUpdate tdefUsers recPerm mode s = Except.ok ((false, some "invalid type"), s))
    ∧ checkRecord tdefUsers recPerm 3 =
        Except.ok (Except.ok [mkI64 1, mkStr [74, 111, 104, 110], mkStr [106, 64, 120]]) :=
  c10_type_check_is_positional tdefUsers recPerm (by decide) (by decide)


lemma readRange_eq_div_mod (d : Bytes) (q n : Nat) (h : q + n ≤ d.len) :
    readRange d q n = ⟨n, d.data / 256 ^ (d.len - q - n) % 256 ^ n⟩ := by
  simp only [readRange]
  have hmin : min n (d.len - q) = n := by omega
  rw [hmin]
  have hsplit : (256 : Nat) ^ (d.len - q) = 256 ^ (d.len - q - n) * 256 ^ n := by
    rw [← pow_add]
    congr 1
    omega
  rw [hsplit, Nat.mod_mul_right_div_self]

lemma writeBytes_data (d src : Bytes) (p : Nat) (hp : p + src.len ≤ d.len)
    (hd : d.data < 256 ^ d.len) :
    writeBytes d p src =
      ⟨d.len, d.data / 256 ^ (d.len - p) * 256 ^ (d.len - p)
        + src.data * 256 ^ (d.len - p - src.len)
        + d.data % 256 ^ (d.len - p - src.len)⟩ := by
  simp only [writeBytes, readRange]
  have e1 : d.len - 0 = d.len := by omega
  rw [e1]
  have e2 : min p d.len = p := by omega
  have e3 : min d.len (d.len - (p + src.len)) = d.len - p - src.len := by omega
  rw [e2, e3]
  have e4 : d.data % 256 ^ d.len = d.data := Nat.mod_eq_of_lt hd
  have e5 : d.len - (p + src.len) - (d.len - p - src.len) = 0 := by omega
  have e6 : p + src.len + (d.len - p - src.len) - d.len = 0 := by omega
  have e7 : src.len + (d.len - p - src.len) = d.len - p := by omega
  have e8 : d.len - (p + src.len) = d.len - p - src.len := by omega
  rw [e4, e5, e6, e7, e8]
  simp only [pow_zero, Nat.div_one]

lemma writeBytes_len (d src : Bytes) (p : Nat) : (writeBytes d p src).len = d.len := rfl

lemma readRange_wf (d : Bytes) (q n : Nat) :
    (readRange d q n).data < 256 ^ (readRange d q n).len := by
  simp only [readRange]
  rw [Nat.div_lt_iff_lt_mul (by positivity)]
  calc d.data % 256 ^ (d.len - q) < 256 ^ (d.len - q) := Nat.mod_lt _ (by positivity)
    _ ≤ 256 ^ (min n (d.len - q)) * 256 ^ (d.len - q - min n (d.len - q)) := by
        rw [← pow_add]
        apply Nat.pow_le_pow_right (by omega)
        omega

lemma catBound {P Q R a b c : Nat} (ha : a < 256 ^ P) (hb : b < 256 ^ Q) (hc : c < 256 ^ R) :
    a * 256 ^ (Q + R) + b * 256 ^ R + c < 256 ^ (P + Q + R) := by
  have h1 : a * 256 ^ (Q + R) + b * 256 ^ R + c < a * 256 ^ (Q + R) + (b + 1) * 256 ^ R := by
    have : b * 256 ^ R + c < b * 256 ^ R + 256 ^ R := by omega
    calc a * 256 ^ (Q + R) + b * 256 ^ R + c
        = a * 256 ^ (Q + R) + (b * 256 ^ R + c) := by ring
      _ < a * 256 ^ (Q + R) + (b * 256 ^ R + 256 ^ R) := by omega
      _ = a * 256 ^ (Q + R) + (b + 1) * 256 ^ R := by ring
  have h2 : (b + 1) * 256 ^ R ≤ 256 ^ Q * 256 ^ R := Nat.mul_le_mul (by omega) (le_refl _)
  have h3 : a * 256 ^ (Q + R) + 256 ^ Q * 256 ^ R = (a + 1) * 256 ^ (Q + R) := by
    rw [pow_add]
    ring
  have h4 : (a + 1) * 256 ^ (Q + R) ≤ 256 ^ P * 256 ^ (Q + R) :=
    Nat.mul_le_mul (by omega) (le_refl _)
  calc a * 256 ^ (Q + R) + b * 256 ^ R + c
      < a * 256 ^ (Q + R) + (b + 1) * 256 ^ R := h1
    _ ≤ a * 256 ^ (Q + R) + 256 ^ Q * 256 ^ R := by omega
    _ = (a + 1) * 256 ^ (Q + R) := h3
    _ ≤ 256 ^ P * 256 ^ (Q + R) := h4
    _ = 256 ^ (P + Q + R) := by
        rw [← pow_add]
        congr 1
        omega

lemma writeBytes_wf (d src : Bytes) (p : Nat) (hs : src.data < 256 ^ src.len) :
    (writeBytes d p src).data < 256 ^ (writeBytes d p src).len := by
  have h1 := readRange_wf d 0 p
  have h2 := readRange_wf d (p + src.len) d.len
  have hplen : (readRange d 0 p).len = min p (d.len - 0) := rfl
  have hqlen : (readRange d (p + src.len) d.len).len = min d.len (d.len - (p + src.len)) := rfl
  simp only [writeBytes]
  set pre := readRange d 0 p with hpre
  set post := readRange d (p + src.len) d.len with hpost
  have htot : d.len ≤ pre.len + src.len + post.len := by
    rw [hplen, hqlen]
    omega
  have hcat := @catBound pre.len src.len post.len _ _ _ h1 hs h2
  rw [Nat.div_lt_iff_lt_mul (by positivity)]
  calc pre.data * 256 ^ (src.len + post.len) + src.data * 256 ^ post.len + post.data
      < 256 ^ (pre.len + src.len + post.len) := hcat
    _ ≤ 256 ^ d.len * 256 ^ (pre.len + src.len + post.len - d.len) := by
        rw [← pow_add]
        apply Nat.pow_le_pow_right (by omega)
        omega

lemma readRange_writeBytes_self (d src : Bytes) (p : Nat) (hp : p + src.len ≤ d.len)
    (hd : d.data < 256 ^ d.len) (hs : src.data < 256 ^ src.len) :
    readRange (writeBytes d p src) p src.len = src := by
  rw [writeBytes_data d src p hp hd]
  rw [readRange_eq_div_mod _ p src.len (by exact hp)]
  dsimp only
  have hsplit : (256 : Nat) ^ (d.len - p) = 256 ^ src.len * 256 ^ (d.len - p - src.len) := by
    rw [← pow_add]
    congr 1
    omega
  have hw : d.data % 256 ^ (d.len - p - src.len) < 256 ^ (d.len - p - src.len) :=
    Nat.mod_lt _ (by positivity)
  have key : (d.data / 256 ^ (d.len - p) * 256 ^ (d.len - p)
      + src.data * 256 ^ (d.len - p - src.len)
      + d.data % 256 ^ (d.len - p - src.len)) / 256 ^ (d.len - p - src.len) % 256 ^ src.len
      = src.data := by
    rw [hsplit]
    have e : d.data / (256 ^ src.len * 256 ^ (d.len - p - src.len))
          * (256 ^ src.len * 256 ^ (d.len - p - src.len))
        + src.data * 256 ^ (d.len - p - src.len)
        + d.data % 256 ^ (d.len - p - src.len)
        = 256 ^ (d.len - p - src.len)
          * (d.data / (256 ^ src.len * 256 ^ (d.len - p - src.len)) * 256 ^ src.len + src.data)
        + d.data % 256 ^ (d.len - p - src.len) := by ring
    rw [e, Nat.mul_add_div (by positivity), Nat.div_eq_of_lt hw, Nat.add_zero]
    rw [Nat.add_comm, Nat.add_mul_mod_self_right, Nat.mod_eq_of_lt hs]
  rw [key]

lemma readRange_writeBytes_before (d src : Bytes) (p q n : Nat) (hqn : q + n ≤ p)
    (hp : p + src.len ≤ d.len) (hd : d.data < 256 ^ d.len) (hs : src.data < 256 ^ src.len) :
    readRange (writeBytes d p src) q n = readRange d q n := by
  rw [writeBytes_data d src p hp hd]
  rw [readRange_eq_div_mod _ q n (by show q + n ≤ d.len; omega)]
  rw [readRange_eq_div_mod d q n (by omega)]
  dsimp only
  congr 1
  have hrw : d.data % 256 ^ (d.len - p - src.len) < 256 ^ (d.len - p - src.len) :=
    Nat.mod_lt _ (by positivity)
  have h3 : (256 : Nat) ^ src.len * 256 ^ (d.len - p - src.len) = 256 ^ (d.len - p) := by
    rw [← pow_add]
    congr 1
    omega
  have hr : src.data * 256 ^ (d.len - p - src.len) + d.data % 256 ^ (d.len - p - src.len)
      < 256 ^ (d.len - p) := by
    have h2 : (src.data + 1) * 256 ^ (d.len - p - src.len) ≤
        256 ^ src.len * 256 ^ (d.len - p - src.len) :=
      Nat.mul_le_mul (by omega) (le_refl _)
    nlinarith [hrw, h2, h3]
  have hA : (d.data / 256 ^ (d.len - p) * 256 ^ (d.len - p)
      + src.data * 256 ^ (d.len - p - src.len) + d.data % 256 ^ (d.len - p - src.len))
      / 256 ^ (d.len - p) = d.data / 256 ^ (d.len - p) := by
    have e : d.data / 256 ^ (d.len - p) * 256 ^ (d.len - p)
        + src.data * 256 ^ (d.len - p - src.len) + d.data % 256 ^ (d.len - p - src.len)
        = 256 ^ (d.len - p) * (d.data / 256 ^ (d.len - p))
          + (src.data * 256 ^ (d.len - p - src.len)
             + d.data % 256 ^ (d.len - p - src.len)) := by ring
    rw [e, Nat.mul_add_div (by positivity), Nat.div_eq_of_lt hr, Nat.add_zero]
  have hsplit : (256 : Nat) ^ (d.len - q - n) = 256 ^ (d.len - p) * 256 ^ (p - q - n) := by
    rw [← pow_add]
    congr 1
    omega
  rw [hsplit, ← Nat.div_div_eq_div_mul, ← Nat.div_div_eq_div_mul, hA]

lemma readRange_writeBytes_after (d src : Bytes) (p q n : Nat) (hq : p + src.len ≤ q)
    (hp : p + src.len ≤ d.len) (hd : d.data < 256 ^ d.len) :
    readRange (writeBytes d p src) q n = readRange d q n := by
  rw [writeBytes_data d src p hp hd]
  simp only [readRange]
  by_cases hqL : q ≤ d.len
  case neg =>
    have h0 : d.len - q = 0 := by omega
    rw [h0]
    simp [Nat.mod_one]
  case pos =>
    have hsplit1 : (256 : Nat) ^ (d.len - p) = 256 ^ (q - p) * 256 ^ (d.len - q) := by
      rw [← pow_add]
      congr 1
      omega
    have hsplit2 : (256 : Nat) ^ (d.len - p - src.len) =
        256 ^ (q - p - src.len) * 256 ^ (d.len - q) := by
      rw [← pow_add]
      congr 1
      omega
    have hdvd : (256 : Nat) ^ (d.len - q) ∣ 256 ^ (d.len - p - src.len) :=
      ⟨256 ^ (q - p - src.len), by rw [hsplit2]; ring⟩
    have hmodeq : (d.data / 256 ^ (d.len - p) * 256 ^ (d.len - p)
        + src.data * 256 ^ (d.len - p - src.len) + d.data % 256 ^ (d.len - p - src.len))
        % 256 ^ (d.len - q) = d.data % 256 ^ (d.len - q) := by
      have hmm := Nat.mod_mod_of_dvd d.data hdvd
      set A := d.data / 256 ^ (d.len - p) with hA
      set w := d.data % 256 ^ (d.len - p - src.len) with hw
      have e1 : A * 256 ^ (d.len - p) + src.data * 256 ^ (d.len - p - src.len) + w
          = w + (A * 256 ^ (q - p) + src.data * 256 ^ (q - p - src.len))
              * 256 ^ (d.len - q) := by
        rw [hsplit1, hsplit2]
        ring
      rw [e1, Nat.add_mul_mod_self_right]
      exact hmm
    rw [hmodeq]


/-! ## Little-endian encoding lemmas and symbolic read/write facts -/

lemma bind_ok {A B : Type} (a : A) (f : A → M B) :
    (Except.ok a : M A) >>= f = f a := rfl

lemma leB_len (w v : Nat) : (leB w v).len = w := by
  cases w <;> rfl

lemma leB_wf (w v : Nat) : (leB w v).data < 256 ^ w := by
  induction w generalizing v with
  | zero => simp [leB]
  | succ w ih =>
    have h1 : v % 256 < 256 := Nat.mod_lt _ (by omega)
    have h2 := ih (v / 256)
    show v % 256 * 256 ^ w + (leB w (v / 256)).data < 256 ^ (w + 1)
    calc v % 256 * 256 ^ w + (leB w (v / 256)).data
        < v % 256 * 256 ^ w + 256 ^ w := by omega
      _ = (v % 256 + 1) * 256 ^ w := by ring
      _ ≤ 256 * 256 ^ w := Nat.mul_le_mul (by omega) (le_refl _)
      _ = 256 ^ (w + 1) := by ring

lemma lvalGo_leB (w v : Nat) : lvalGo w (leB w v).data = v % 256 ^ w := by
  induction w generalizing v with
  | zero => simp [leB, lvalGo, Nat.mod_one]
  | succ w ih =>
    have hr : (leB w (v / 256)).data < 256 ^ w := leB_wf w (v / 256)
    show lvalGo (w + 1) (v % 256 * 256 ^ w + (leB w (v / 256)).data) = v % 256 ^ (w + 1)
    simp only [lvalGo]
    have hdiv : (v % 256 * 256 ^ w + (leB w (v / 256)).data) / 256 ^ w = v % 256 := by
      have e : v % 256 * 256 ^ w + (leB w (v / 256)).data
          = (leB w (v / 256)).data + 256 ^ w * (v % 256) := by ring
      rw [e, Nat.add_mul_div_left _ _ (by positivity), Nat.div_eq_of_lt hr, Nat.zero_add]
    have hmod : (v % 256 * 256 ^ w + (leB w (v / 256)).data) % 256 ^ w
        = (leB w (v / 256)).data := by
      have e : v % 256 * 256 ^ w + (leB w (v / 256)).data
          = 256 ^ w * (v % 256) + (leB w (v / 256)).data := by ring
      rw [e, Nat.mul_add_mod, Nat.mod_eq_of_lt hr]
    rw [hdiv, hmod, ih]
    have h1 : v % 256 % 256 = v % 256 := Nat.mod_mod_of_dvd v (dvd_refl 256)
    rw [h1]
    have h2 : v / 256 % 256 ^ w = v % 256 ^ (w + 1) / 256 := by
      have e : (256 : Nat) * 256 ^ w = 256 ^ (w + 1) := by
        rw [pow_succ]
        ring
      rw [← Nat.mod_mul_right_div_self, e]
    have h3 : v % 256 = v % 256 ^ (w + 1) % 256 := by
      rw [Nat.mod_mod_of_dvd v ⟨256 ^ w, by rw [pow_succ]; ring⟩]
    rw [h2, h3]
    exact Nat.mod_add_div _ 256

lemma lvalB_leB (w v : Nat) : lvalB (leB w v) = v % 256 ^ w := by
  show lvalGo (leB w v).len (leB w v).data = v % 256 ^ w
  rw [leB_len]
  exact lvalGo_leB w v

lemma readRange_zero (d : Bytes) (q : Nat) : readRange d q 0 = Bytes.nil := by
  simp only [readRange, Bytes.nil]
  have h1 : min 0 (d.len - q) = 0 := by omega
  rw [h1, Nat.sub_zero]
  have hd : d.data % 256 ^ (d.len - q) / 256 ^ (d.len - q) = 0 :=
    Nat.div_eq_of_lt (Nat.mod_lt _ (by positivity))
  rw [hd]

/-! ## The root node produced by the first insert into an empty tree -/

lemma rootBase_eq : nodeAppendKV (setHeader (zeros BTREE_PAGE_SIZE) BNODE_LEAF 2) 0 0
    Bytes.nil Bytes.nil = Except.ok rootBase := rfl

lemma setPtr_rootBase : setPtr rootBase 0 1 = Except.ok rootB2 := rfl

lemma kvPos_rootB2 : kvPos rootB2 1 = Except.ok 28 := rfl

lemma rootB2_wf : rootB2.data < 256 ^ rootB2.len :=
  writeBytes_wf rootBase (leB 8 0) 12 (leB_wf 8 0)

lemma nw1_wf (key : Bytes) : (nw1 key).data < 256 ^ (nw1 key).len :=
  writeBytes_wf rootB2 (leB 2 key.len) 28 (leB_wf 2 key.len)

lemma nw2_wf (key val : Bytes) : (nw2 key val).data < 256 ^ (nw2 key val).len :=
  writeBytes_wf (nw1 key) (leB 2 val.len) 30 (leB_wf 2 val.len)

lemma nw3_wf (key val : Bytes) (hkd : key.data < 256 ^ key.len) :
    (nw3 key val).data < 256 ^ (nw3 key val).len :=
  writeBytes_wf (nw2 key val) key 32 hkd

lemma nw4_wf (key val : Bytes) (hvd : val.data < 256 ^ val.len) :
    (nw4 key val).data < 256 ^ (nw4 key val).len :=
  writeBytes_wf (nw3 key val) val (32 + key.len) hvd

lemma nw4_read_low (key val : Bytes) (hk : key.len ≤ 1000) (hv : val.len ≤ 3000)
    (hkd : key.data < 256 ^ key.len) (hvd : val.data < 256 ^ val.len)
    (q n : Nat) (h28 : q + n ≤ 28) :
    readRange (nw4 key val) q n = readRange rootB2 q n := by
  simp only [nw4]
  rw [readRange_writeBytes_before (nw3 key val) val (32 + key.len) q n (by omega)
    (by show 32 + key.len + val.len ≤ 4096; omega) (nw3_wf key val hkd) hvd]
  simp only [nw3]
  rw [readRange_writeBytes_before (nw2 key val) key 32 q n (by omega)
    (by show 32 + key.len ≤ 4096; omega) (nw2_wf key val) hkd]
  simp only [nw2]
  rw [readRange_writeBytes_before (nw1 key) (leB 2 val.len) 30 q n (by omega)
    (by show 30 + 2 ≤ 4096; omega) (nw1_wf key) (leB_wf 2 val.len)]
  simp only [nw1]
  rw [readRange_writeBytes_before rootB2 (leB 2 key.len) 28 q n h28
    (by show 28 + 2 ≤ 4096; omega) rootB2_wf (leB_wf 2 key.len)]

lemma rootWith_read_low (key val : Bytes) (hk : key.len ≤ 1000) (hv : val.len ≤ 3000)
    (hkd : key.data < 256 ^ key.len) (hvd : val.data < 256 ^ val.len)
    (q n : Nat) (h28 : q + n ≤ 28) (hside : q + n ≤ 22 ∨ 24 ≤ q) :
    readRange (rootWith key val) q n = readRange rootB2 q n := by
  have h5 : readRange (rootWith key val) q n = readRange (nw4 key val) q n := by
    simp only [rootWith]
    rcases hside with h | h
    · exact readRange_writeBytes_before (nw4 key val) (leB 2 (8 + key.len + val.len)) 22 q n h
        (by show 22 + 2 ≤ 4096; omega) (nw4_wf key val hvd) (leB_wf 2 _)
    · exact readRange_writeBytes_after (nw4 key val) (leB 2 (8 + key.len + val.len)) 22 q n
        (by show 22 + 2 ≤ q; omega) (by show 22 + 2 ≤ 4096; omega) (nw4_wf key val hvd)
  rw [h5]
  exact nw4_read_low key val hk hv hkd hvd q n h28

lemma nw4_nKeys (key val : Bytes) (hk : key.len ≤ 1000) (hv : val.len ≤ 3000)
    (hkd : key.data < 256 ^ key.len) (hvd : val.data < 256 ^ val.len) :
    nKeys (nw4 key val) = 2 := by
  simp only [nKeys]
  rw [nw4_read_low key val hk hv hkd hvd 2 2 (by omega)]
  rfl

lemma nw4_getOffset1 (key val : Bytes) (hk : key.len ≤ 1000) (hv : val.len ≤ 3000)
    (hkd : key.data < 256 ^ key.len) (hvd : val.data < 256 ^ val.len) :
    getOffset (nw4 key val) 1 = 4 := by
  have hop : offsetPos (nw4 key val) 1 = 20 := by
    simp only [offsetPos]
    rw [nw4_nKeys key val hk hv hkd hvd]
    rfl
  simp only [getOffset]
  rw [if_neg (by omega : ¬ (1 : Nat) = 0), hop,
    nw4_read_low key val hk hv hkd hvd 20 2 (by omega)]
  rfl

lemma rootWith_nKeys (key val : Bytes) (hk : key.len ≤ 1000) (hv : val.len ≤ 3000)
    (hkd : key.data < 256 ^ key.len) (hvd : val.data < 256 ^ val.len) :
    nKeys (rootWith key val) = 2 := by
  simp only [nKeys]
  rw [rootWith_read_low key val hk hv hkd hvd 2 2 (by omega) (Or.inl (by omega))]
  rfl

lemma rootWith_type (key val : Bytes) (hk : key.len ≤ 1000) (hv : val.len ≤ 3000)
    (hkd : key.data < 256 ^ key.len) (hvd : val.data < 256 ^ val.len) :
    bNodeType (rootWith key val) = BNODE_LEAF := by
  simp only [bNodeType]
  rw [rootWith_read_low key val hk hv hkd hvd 0 2 (by omega) (Or.inl (by omega))]
  rfl

lemma rootWith_getOffset1 (key val : Bytes) (hk : key.len ≤ 1000) (hv : val.len ≤ 3000)
    (hkd : key.data < 256 ^ key.len) (hvd : val.data < 256 ^ val.len) :
    getOffset (rootWith key val) 1 = 4 := by
  have hop : offsetPos (rootWith key val) 1 = 20 := by
    simp only [offsetPos]
    rw [rootWith_nKeys key val hk hv hkd hvd]
    rfl
  simp only [getOffset]
  rw [if_neg (by omega : ¬ (1 : Nat) = 0), hop,
    rootWith_read_low key val hk hv hkd hvd 20 2 (by omega) (Or.inl (by omega))]
  rfl

lemma rootWith_kvPos1 (key val : Bytes) (hk : key.len ≤ 1000) (hv : val.len ≤ 3000)
    (hkd : key.data < 256 ^ key.len) (hvd : val.data < 256 ^ val.len) :
    kvPos (rootWith key val) 1 = Except.ok 28 := by
  simp only [kvPos]
  rw [rootWith_nKeys key val hk hv hkd hvd, if_pos (by omega : (1 : Nat) ≤ 2),
    rootWith_getOffset1 key val hk hv hkd hvd]
  rfl

lemma rootWith_kvPos0 (key val : Bytes) (hk : key.len ≤ 1000) (hv : val.len ≤ 3000)
    (hkd : key.data < 256 ^ key.len) (hvd : val.data < 256 ^ val.len) :
    kvPos (rootWith key val) 0 = Except.ok 24 := by
  simp only [kvPos]
  rw [rootWith_nKeys key val hk hv hkd hvd, if_pos (by omega : (0 : Nat) ≤ 2)]
  rfl

lemma rootWith_read_klen (key val : Bytes) (hk : key.len ≤ 1000) (hv : val.len ≤ 3000)
    (hkd : key.data < 256 ^ key.len) (hvd : val.data < 256 ^ val.len) :
    readRange (rootWith key val) 28 2 = leB 2 key.len := by
  simp only [rootWith]
  rw [readRange_writeBytes_after (nw4 key val) (leB 2 (8 + key.len + val.len)) 22 28 2
    (by show 22 + 2 ≤ 28; omega) (by show 22 + 2 ≤ 4096; omega) (nw4_wf key val hvd)]
  simp only [nw4]
  rw [readRange_writeBytes_before (nw3 key val) val (32 + key.len) 28 2 (by omega)
    (by show 32 + key.len + val.len ≤ 4096; omega) (nw3_wf key val hkd) hvd]
  simp only [nw3]
  rw [readRange_writeBytes_before (nw2 key val) key 32 28 2 (by omega)
    (by show 32 + key.len ≤ 4096; omega) (nw2_wf key val) hkd]
  simp only [nw2]
  rw [readRange_writeBytes_before (nw1 key) (leB 2 val.len) 30 28 2 (by omega)
    (by show 30 + 2 ≤ 4096; omega) (nw1_wf key) (leB_wf 2 val.len)]
  simp only [nw1]
  have h := readRange_writeBytes_self rootB2 (leB 2 key.len) 28
    (by show 28 + 2 ≤ 4096; omega) rootB2_wf (leB_wf 2 key.len)
  rw [show (leB 2 key.len).len = 2 from rfl] at h
  exact h

lemma rootWith_read_vlen (key val : Bytes) (hk : key.len ≤ 1000) (hv : val.len ≤ 3000)
    (hkd : key.data < 256 ^ key.len) (hvd : val.data < 256 ^ val.len) :
    readRange (rootWith key val) 30 2 = leB 2 val.len := by
  simp only [rootWith]
  rw [readRange_writeBytes_after (nw4 key val) (leB 2 (8 + key.len + val.len)) 22 30 2
    (by show 22 + 2 ≤ 30; omega) (by show 22 + 2 ≤ 4096; omega) (nw4_wf key val hvd)]
  simp only [nw4]
  rw [readRange_writeBytes_before (nw3 key val) val (32 + key.len) 30 2 (by omega)
    (by show 32 + key.len + val.len ≤ 4096; omega) (nw3_wf key val hkd) hvd]
  simp only [nw3]
  rw [readRange_writeBytes_before (nw2 key val) key 32 30 2 (by omega)
    (by show 32 + key.len ≤ 4096; omega) (nw2_wf key val) hkd]
  simp only [nw2]
  have h := readRange_writeBytes_self (nw1 key) (leB 2 val.len) 30
    (by show 30 + 2 ≤ 4096; omega) (nw1_wf key) (leB_wf 2 val.len)
  rw [show (leB 2 val.len).len = 2 from rfl] at h
  exact h

lemma rootWith_read_key (key val : Bytes) (hk : key.len ≤ 1000) (hv : val.len ≤ 3000)
    (hkd : key.data < 256 ^ key.len) (hvd : val.data < 256 ^ val.len) :
    readRange (rootWith key val) 32 key.len = key := by
  simp only [rootWith]
  rw [readRange_writeBytes_after (nw4 key val) (leB 2 (8 + key.len + val.len)) 22 32 key.len
    (by show 22 + 2 ≤ 32; omega) (by show 22 + 2 ≤ 4096; omega) (nw4_wf key val hvd)]
  simp only [nw4]
  rw [readRange_writeBytes_before (nw3 key val) val (32 + key.len) 32 key.len (by omega)
    (by show 32 + key.len + val.len ≤ 4096; omega) (nw3_wf key val hkd) hvd]
  simp only [nw3]
  exact readRange_writeBytes_self (nw2 key val) key 32
    (by show 32 + key.len ≤ 4096; omega) (nw2_wf key val) hkd

lemma rootWith_read_val (key val : Bytes) (hk : key.len ≤ 1000) (hv : val.len ≤ 3000)
    (hkd : key.data < 256 ^ key.len) (hvd : val.data < 256 ^ val.len) :
    readRange (rootWith key val) (32 + key.len) val.len = val := by
  simp only [rootWith]
  rw [readRange_writeBytes_after (nw4 key val) (leB 2 (8 + key.len + val.len)) 22
    (32 + key.len) val.len
    (by show 22 + 2 ≤ 32 + key.len; omega) (by show 22 + 2 ≤ 4096; omega)
    (nw4_wf key val hvd)]
  simp only [nw4]
  exact readRange_writeBytes_self (nw3 key val) val (32 + key.len)
    (by show 32 + key.len + val.len ≤ 4096; omega) (nw3_wf key val hkd) hvd

lemma rootWith_getKey1 (key val : Bytes) (hk : key.len ≤ 1000) (hv : val.len ≤ 3000)
    (hkd : key.data < 256 ^ key.len) (hvd : val.data < 256 ^ val.len) :
    getKey (rootWith key val) 1 = Except.ok key := by
  have hklmod : key.len % 256 ^ 2 = key.len := by
    have h2 : (256 : Nat) ^ 2 = 65536 := by norm_num
    rw [h2]
    omega
  simp only [getKey]
  rw [rootWith_nKeys key val hk hv hkd hvd]
  rw [if_pos (by omega : (1 : Nat) < 2)]
  simp only [rootWith_kvPos1 key val hk hv hkd hvd, bind_ok]
  rw [rootWith_read_klen key val hk hv hkd hvd, lvalB_leB, hklmod]
  rw [show ((28 : Nat) + 4) % 2 ^ 16 = 32 from rfl]
  rw [rootWith_read_key key val hk hv hkd hvd]

lemma rootWith_getVal1 (key val : Bytes) (hk : key.len ≤ 1000) (hv : val.len ≤ 3000)
    (hkd : key.data < 256 ^ key.len) (hvd : val.data < 256 ^ val.len) :
    getVal (rootWith key val) 1 = Except.ok val := by
  have hklmod : key.len % 256 ^ 2 = key.len := by
    have h2 : (256 : Nat) ^ 2 = 65536 := by norm_num
    rw [h2]
    omega
  have hvlmod : val.len % 256 ^ 2 = val.len := by
    have h2 : (256 : Nat) ^ 2 = 65536 := by norm_num
    rw [h2]
    omega
  simp only [getVal]
  rw [rootWith_nKeys key val hk hv hkd hvd]
  rw [if_pos (by omega : (1 : Nat) < 2)]
  simp only [rootWith_kvPos1 key val hk hv hkd hvd, bind_ok]
  rw [rootWith_read_klen key val hk hv hkd hvd, lvalB_leB, hklmod]
  rw [show ((28 : Nat) + 2) % 2 ^ 16 = 30 from rfl]
  rw [rootWith_read_vlen key val hk hv hkd hvd, lvalB_leB, hvlmod]
  have hpos : (28 + 4 + key.len) % 2 ^ 16 = 32 + key.len := by omega
  rw [hpos]
  rw [rootWith_read_val key val hk hv hkd hvd]

lemma rootWith_getKey0 (key val : Bytes) (hk : key.len ≤ 1000) (hv : val.len ≤ 3000)
    (hkd : key.data < 256 ^ key.len) (hvd : val.data < 256 ^ val.len) :
    getKey (rootWith key val) 0 = Except.ok Bytes.nil := by
  simp only [getKey]
  rw [rootWith_nKeys key val hk hv hkd hvd]
  rw [if_pos (by omega : (0 : Nat) < 2)]
  simp only [rootWith_kvPos0 key val hk hv hkd hvd, bind_ok]
  rw [rootWith_read_low key val hk hv hkd hvd 24 2 (by omega) (Or.inr (by omega))]
  rw [show lvalB (readRange rootB2 24 2) = 0 from rfl]
  rw [readRange_zero]

lemma rootWith_getVal0 (key val : Bytes) (hk : key.len ≤ 1000) (hv : val.len ≤ 3000)
    (hkd : key.data < 256 ^ key.len) (hvd : val.data < 256 ^ val.len) :
    getVal (rootWith key val) 0 = Except.ok Bytes.nil := by
  simp only [getVal]
  rw [rootWith_nKeys key val hk hv hkd hvd]
  rw [if_pos (by omega : (0 : Nat) < 2)]
  simp only [rootWith_kvPos0 key val hk hv hkd hvd, bind_ok]
  rw [show ((24 : Nat) + 2) % 2 ^ 16 = 26 from rfl]
  rw [rootWith_read_low key val hk hv hkd hvd 26 2 (by omega) (Or.inr (by omega))]
  rw [show lvalB (readRange rootB2 26 2) = 0 from rfl]
  rw [readRange_zero]

lemma nodeAppendKV_rootBase (key val : Bytes) (hk : key.len ≤ 1000) (hv : val.len ≤ 3000)
    (hkd : key.data < 256 ^ key.len) (hvd : val.data < 256 ^ val.len) :
    nodeAppendKV rootBase 1 0 key val = Except.ok (rootWith key val) := by
  have hkl : key.len % 2 ^ 16 = key.len := by omega
  have hvl : val.len % 2 ^ 16 = val.len := by omega
  simp only [nodeAppendKV, setPtr_rootBase, kvPos_rootB2, bind_ok]
  rw [hkl, hvl]
  rw [show ((28 : Nat) + 2) % 2 ^ 16 = 30 from rfl]
  rw [show ((28 : Nat) + 4) % 2 ^ 16 = 32 from rfl]
  have e32k : (28 + 4 + key.len) % 2 ^ 16 = 32 + key.len := by omega
  rw [e32k]
  show Except.ok (setOffset (nw4 key val) 2
      ((getOffset (nw4 key val) 1 + 4 + (key.len + val.len) % 2 ^ 16) % 2 ^ 16))
    = Except.ok (rootWith key val)
  rw [nw4_getOffset1 key val hk hv hkd hvd]
  have hklv : (key.len + val.len) % 2 ^ 16 = key.len + val.len := by omega
  rw [hklv]
  have hsum : (4 + 4 + (key.len + val.len)) % 2 ^ 16 = 8 + key.len + val.len := by omega
  rw [hsum]
  simp only [setOffset]
  have hop2 : offsetPos (nw4 key val) 2 = 22 := by
    simp only [offsetPos]
    rw [nw4_nKeys key val hk hv hkd hvd]
    rfl
  rw [hop2]
  have hmod2 : (8 + key.len + val.len) % 2 ^ 16 = 8 + key.len + val.len := by omega
  rw [hmod2]
  rfl

lemma btreeInsert_first (key val : Bytes) (hk0 : 0 < key.len) (hk : key.len ≤ 1000)
    (hv : val.len ≤ 3000) (hkd : key.data < 256 ^ key.len)
    (hvd : val.data < 256 ^ val.len) :
    btreeInsert FUEL (kvBegin freshKV) key val = Except.ok (none, sFin key val) := by
  have h1 : ¬ (key.len = 0 ∨ BTREE_MAX_KEY_SIZE < key.len) := by
    simp only [BTREE_MAX_KEY_SIZE]
    omega
  have h2 : ¬ BTREE_MAX_VAL_SIZE < val.len := by
    simp only [BTREE_MAX_VAL_SIZE]
    omega
  simp only [btreeInsert]
  rw [if_neg h1, if_neg h2, if_pos (show (kvBegin freshKV).treeRoot = 0 from rfl)]
  rw [rootBase_eq]
  simp only [bind_ok]
  rw [nodeAppendKV_rootBase key val hk hv hkd hvd]
  simp only [bind_ok]
  rfl

/-- C9: the first insert into an empty tree (root pointer 0) succeeds and
produces a root page holding a leaf node with exactly two entries: the
synthetic minimum entry (empty key, empty value) at index 0, followed by
the inserted pair (key, val) at index 1. -/
theorem c9_first_insert_builds_two_entry_leaf_root (key val : Bytes)
    (hk0 : 0 < key.len) (hk : key.len ≤ BTREE_MAX_KEY_SIZE)
    (hv : val.len ≤ BTREE_MAX_VAL_SIZE)
    (hkd : key.data < 256 ^ key.len) (hvd : val.data < 256 ^ val.len) :
    btreeInsert FUEL (kvBegin freshKV) key val = Except.ok (none, sFin key val) ∧
    pageGet (sFin key val) (sFin key val).treeRoot = Except.ok (rootWith key val) ∧
    bNodeType (rootWith key val) = BNODE_LEAF ∧
    nKeys (rootWith key val) = 2 ∧
    getKey (rootWith key val) 0 = Except.ok Bytes.nil ∧
    getVal (rootWith key val) 0 = Except.ok Bytes.nil ∧
    getKey (rootWith key val) 1 = Except.ok key ∧
    getVal (rootWith key val) 1 = Except.ok val :=
  ⟨btreeInsert_first key val hk0 hk hv hkd hvd, rfl,
   rootWith_type key val hk hv hkd hvd,
   rootWith_nKeys key val hk hv hkd hvd,
   rootWith_getKey0 key val hk hv hkd hvd,
   rootWith_getVal0 key val hk hv hkd hvd,
   rootWith_getKey1 key val hk hv hkd hvd,
   rootWith_getVal1 key val hk hv hkd hvd⟩

/-- Witness for C9: key = [0x41], val = [0x42]. -/
theorem c9_first_insert_builds_two_entry_leaf_root_witness :
    btreeInsert FUEL (kvBegin freshKV) ⟨1, 65⟩ ⟨1, 66⟩
        = Except.ok (none, sFin ⟨1, 65⟩ ⟨1, 66⟩) ∧
    pageGet (sFin ⟨1, 65⟩ ⟨1, 66⟩) (sFin ⟨1, 65⟩ ⟨1, 66⟩).treeRoot
        = Except.ok (rootWith ⟨1, 65⟩ ⟨1, 66⟩) ∧
    bNodeType (rootWith ⟨1, 65⟩ ⟨1, 66⟩) = BNODE_LEAF ∧
    nKeys (rootWith ⟨1, 65⟩ ⟨1, 66⟩) = 2 ∧
    getKey (rootWith ⟨1, 65⟩ ⟨1, 66⟩) 0 = Except.ok Bytes.nil ∧
    getVal (rootWith ⟨1, 65⟩ ⟨1, 66⟩) 0 = Except.ok Bytes.nil ∧
    getKey (rootWith ⟨1, 65⟩ ⟨1, 66⟩) 1 = Except.ok ⟨1, 65⟩ ∧
    getVal (rootWith ⟨1, 65⟩ ⟨1, 66⟩) 1 = Except.ok ⟨1, 66⟩ :=
  c9_first_insert_builds_two_entry_leaf_root ⟨1, 65⟩ ⟨1, 66⟩ (by decide) (by decide)
    (by decide) (by decide) (by decide)

/-! ## C4 amended: Set flushes pages and the master page immediately -/

lemma kvtxSet_first (key val : Bytes) (hk0 : 0 < key.len) (hk : key.len ≤ 1000)
    (hv : val.len ≤ 3000) (hkd : key.data < 256 ^ key.len)
    (hvd : val.data < 256 ^ val.len) :
    kvtxSet (kvBegin freshKV) key val = Except.ok (sFlush key val) := by
  simp only [kvtxSet]
  rw [btreeInsert_first key val hk0 hk hv hkd hvd]
  simp only [bind_ok]
  rfl

/-- C4 (amended): on a fresh database, a single KVTX.Set already writes the
new page and a new master page to the file and fsyncs, before any commit;
the dirty map is cleared and the shared flushed count advanced, and Abort
leaves all of this in place. -/
theorem c4_amended_set_flushes_immediately (key val : Bytes)
    (hk0 : 0 < key.len) (hk : key.len ≤ BTREE_MAX_KEY_SIZE)
    (hv : val.len ≤ BTREE_MAX_VAL_SIZE)
    (hkd : key.data < 256 ^ key.len) (hvd : val.data < 256 ^ val.len) :
    kvtxSet (kvBegin freshKV) key val = Except.ok (sFlush key val) ∧
    (sFlush key val).kv.disk
      = [DiskEv.page 1, DiskEv.fsync,
         DiskEv.master (masterBytes { freshKV with flushed := 2 }), DiskEv.fsync] ∧
    (sFlush key val).kv.flushed = 2 ∧
    (sFlush key val).updates = [] ∧
    kvAbort (sFlush key val) = (sFlush key val).kv :=
  ⟨kvtxSet_first key val hk0 hk hv hkd hvd, rfl, rfl, rfl, rfl⟩

/-- Witness for the amended C4: key = [0x41], val = [0x42]. -/
theorem c4_amended_set_flushes_immediately_witness :
    kvtxSet (kvBegin freshKV) ⟨1, 65⟩ ⟨1, 66⟩ = Except.ok (sFlush ⟨1, 65⟩ ⟨1, 66⟩) ∧
    (sFlush ⟨1, 65⟩ ⟨1, 66⟩).kv.disk
      = [DiskEv.page 1, DiskEv.fsync,
         DiskEv.master (masterBytes { freshKV with flushed := 2 }), DiskEv.fsync] ∧
    (sFlush ⟨1, 65⟩ ⟨1, 66⟩).kv.flushed = 2 ∧
    (sFlush ⟨1, 65⟩ ⟨1, 66⟩).updates = [] ∧
    kvAbort (sFlush ⟨1, 65⟩ ⟨1, 66⟩) = (sFlush ⟨1, 65⟩ ⟨1, 66⟩).kv :=
  c4_amended_set_flushes_immediately ⟨1, 65⟩ ⟨1, 66⟩ (by decide) (by decide)
    (by decide) (by decide) (by decide)

end FiloDB
